import Mathlib

/-
Verification development for the benten workflow model
(src/benten/models/workflow.py).

The Python module builds a graph (inputs, outputs, steps, connections,
problems) from a parsed CWL document.  The parsing support modules
(benten/editing/listormap.py and benten/editing/cwldoc.py) are not part of
the sources under verification; the document-node type and its accessors
are therefore modelled from the specification (section 3, "Document Node":
a node is a Mapping, a Sequence or a Scalar; every Mapping and Sequence
carries a start line and an end line; scalars carry no line information;
map values that are scalars behave as plain strings).

Python exceptions are modelled with an explicit error type `PyErr` and
`Except`-valued functions; `WFConnectionError` is one constructor of
`PyErr`, so that the `except WFConnectionError` handler in
`_list_connections` is the match on that constructor alone, and every
other exception propagates, exactly as in the source.
-/

set_option autoImplicit false

namespace Benten

/-- Modelled from the spec: the line-annotated parse result.  A node is a
Mapping (ordered key-node pairs with a line span), a Sequence (ordered
nodes with a line span), a Scalar (a plain string, no line span), or null
(the parse of an empty YAML value, Python `None`). -/
inductive CWLNode where
  | null : CWLNode
  | scalar (s : String) : CWLNode
  | map (entries : List (String × CWLNode)) (start_line : Nat) (end_line : Nat) : CWLNode
  | list (items : List CWLNode) (start_line : Nat) (end_line : Nat) : CWLNode

/-- Python exceptions that can cross function boundaries in workflow.py. -/
inductive PyErr where
  | wf (msg : String) : PyErr
  | valueError (msg : String) : PyErr
  | typeError (msg : String) : PyErr
  | attributeError (msg : String) : PyErr
  | keyError (msg : String) : PyErr
deriving DecidableEq, Repr

/-- The empty Python dict `\x7b\x7d`, used as the default of `.get(key, \x7b\x7d)`
and as the empty sub-process on a missing file.  Its behaviour under the
accessors below coincides with an empty Mapping node. -/
def emptyMap : CWLNode := CWLNode.map [] 0 0

/-- A single-quote character, used by the Python repr of `odict_keys`. -/
def sq : String := String.mk [Char.ofNat 39]

/-- First-match lookup in an ordered association list (Python dict lookup
after the dict has been built, where keys are unique). -/
def lookupStr {α : Type} (l : List (String × α)) (k : String) : Option α :=
  match l.find? (fun p => p.1 == k) with
  | some p => some p.2
  | none => none

/-- Membership test on the keys of an association list. -/
def hasKeyB {α : Type} (l : List (String × α)) (k : String) : Bool :=
  l.any (fun p => p.1 == k)

/-- One insertion step of Python dict construction: an existing key keeps
its position and gets the new value, a new key is appended. -/
def odInsert {α : Type} (od : List (String × α)) (k : String) (v : α) : List (String × α) :=
  if od.any (fun p => p.1 == k) then od.map (fun p => if p.1 == k then (k, v) else p)
  else od ++ [(k, v)]

/-- Python `OrderedDict(pairs)`: left-to-right insertion with in-place
update on duplicate keys. -/
def odFromList {α : Type} (l : List (String × α)) : List (String × α) :=
  l.foldl (fun od kv => odInsert od kv.1 kv.2) []

/-- Character membership in a list of characters. -/
def charListContains (c : Char) : List Char → Bool
  | [] => false
  | x :: xs => if x = c then true else charListContains c xs

/-- Python `c in s` for a single character. -/
def pyStrContainsChar (s : String) (c : Char) : Bool :=
  charListContains c s.data

/-- Python `str.split(sep)` for a one-character separator, on character
lists; never returns an empty list. -/
def splitOnChar (c : Char) : List Char → List (List Char)
  | [] => [[]]
  | x :: xs =>
    if x = c then [] :: splitOnChar c xs
    else
      match splitOnChar c xs with
      | [] => [[x]]
      | h :: t => (x :: h) :: t

/-- Python `s.split("/")`. -/
def pySplitSlash (s : String) : List String :=
  (splitOnChar '/' s.data).map (fun l => String.mk l)

/-- Needle-in-haystack substring test on character lists (Python
`needle in haystack` for strings). -/
def containsSub (needle : List Char) : List Char → Bool
  | [] => needle.isEmpty
  | x :: xs => List.isPrefixOf needle (x :: xs) || containsSub needle xs

/-- Python `key in node`.  On a Mapping it is key membership; on a Scalar
it is the substring test (Python strings); on a Sequence or on `None` the
behaviour is not defined by the available sources and is modelled as a
`TypeError`, which is what plain Python containers would raise. -/
def pyContainsKey (n : CWLNode) (k : String) : Except PyErr Bool :=
  match n with
  | CWLNode.map es _ _ => Except.ok (hasKeyB es k)
  | CWLNode.scalar s => Except.ok (containsSub k.data s.data)
  | _ => Except.error (PyErr.typeError "argument is not a mapping or a string")

/-- Python `node[key]`: Mapping lookup (`KeyError` when absent); indexing a
Scalar with a string key is a `TypeError`, as for Python `str`; other
variants likewise. -/
def nodeGet (n : CWLNode) (k : String) : Except PyErr CWLNode :=
  match n with
  | CWLNode.map es _ _ =>
    match lookupStr es k with
    | some v => Except.ok v
    | none => Except.error (PyErr.keyError k)
  | CWLNode.scalar _ => Except.error (PyErr.typeError "string indices must be integers")
  | _ => Except.error (PyErr.typeError "indices must be integers")

/-- Python `node.get(key, default)`: only Mappings (and the plain dict
default) have `.get`; on every other value it is an `AttributeError`. -/
def nodeGetD (n : CWLNode) (k : String) (d : CWLNode) : Except PyErr CWLNode :=
  match n with
  | CWLNode.map es _ _ =>
    match lookupStr es k with
    | some v => Except.ok v
    | none => Except.ok d
  | _ => Except.error (PyErr.attributeError "get")

/-- Python `node.start_line` and `node.end_line` together: present on
Mappings and Sequences, an `AttributeError` on scalars and `None`
(modelled from the spec: only Mapping and Sequence carry line spans). -/
def nodeLines (n : CWLNode) : Except PyErr (Nat × Nat) :=
  match n with
  | CWLNode.map _ a b => Except.ok (a, b)
  | CWLNode.list _ a b => Except.ok (a, b)
  | _ => Except.error (PyErr.attributeError "start_line")

/-- Translation of `iter_lom` (workflow.py:42): a Sequence yields
`(l["id"], l)` for each element (the id value must be a scalar to be
usable as a dict key), a Mapping yields its ordered pairs; iterating a
scalar as pairs is a `ValueError` (a one-character unpack) and iterating
`None` a `TypeError`, as in Python. -/
def iter_lom (n : CWLNode) : Except PyErr (List (String × CWLNode)) :=
  match n with
  | CWLNode.list items _ _ =>
    items.mapM (fun l =>
      match nodeGet l "id" with
      | Except.ok (CWLNode.scalar s) => Except.ok (s, l)
      | Except.ok _ => Except.error (PyErr.typeError "unhashable id")
      | Except.error e => Except.error e)
  | CWLNode.map es _ _ => Except.ok es
  | CWLNode.scalar _ => Except.error (PyErr.valueError "not enough values to unpack")
  | CWLNode.null => Except.error (PyErr.typeError "cannot unpack NoneType")

/-- Modelled from the spec: direct `for k, v in node` iteration over a
parsed Mapping or Sequence yields the same ordered pairs as `iter_lom`
(section 9: a uniform iterate-as-ordered-pairs accessor per variant,
sequences synthesizing keys from an `id` field). -/
def pyIterPairs (n : CWLNode) : Except PyErr (List (String × CWLNode)) :=
  iter_lom n

/-- Translation of `iter_scalar_or_list` (workflow.py:56). -/
def iter_scalar_or_list (n : CWLNode) : List CWLNode :=
  match n with
  | CWLNode.list items _ _ => items
  | other => [other]

/-- Translation of class `Port` (workflow.py:77). -/
structure Port where
  node_id : Option String
  port_id : String
  line : Option (Nat × Nat)
deriving DecidableEq, Repr

/-- `Port.__eq__` (workflow.py:83): node and port ids only, `line` ignored. -/
def Port.pyEq (a b : Port) : Bool :=
  a.node_id == b.node_id && a.port_id == b.port_id

/-- Translation of class `Step` (workflow.py:93). -/
structure Step where
  id : String
  line : Nat × Nat
  available_sinks : List (String × Port)
  available_sources : List (String × Port)
deriving DecidableEq, Repr

/-- Python `str(odict_keys([...]))`. -/
def odictKeysRepr (ks : List String) : String :=
  "odict_keys([" ++ String.intercalate ", " (ks.map (fun k => sq ++ k ++ sq)) ++ "])"

/-- `Step.__repr__` (workflow.py:102): sink keys, then the id, then source
keys, joined with arrows. -/
def Step.pyRepr (s : Step) : String :=
  odictKeysRepr (s.available_sinks.map Prod.fst) ++ "->" ++ s.id ++ "->"
    ++ odictKeysRepr (s.available_sources.map Prod.fst)

/-- Translation of class `Connection` (workflow.py:137). -/
structure Connection where
  src : Port
  dst : Port
  line : Option (Nat × Nat)
deriving DecidableEq, Repr

/-- `Connection.__eq__` (workflow.py:143): endpoint ports only. -/
def Connection.pyEq (a b : Connection) : Bool :=
  Port.pyEq a.src b.src && Port.pyEq a.dst b.dst

/-- Modelled from the spec: `pathlib.Path(p).parent` for the posix-style
path strings used here (drop the last `/`-separated component). -/
def pathParent (p : String) : String :=
  match (p.data.reverse.dropWhile (fun c => !(c = '/'))) with
  | [] => String.mk []
  | _ :: t => String.mk t.reverse

/-- Modelled from the spec: `pathlib.Path(root.parent, ref).resolve()` for
a relative reference (join with the parent directory of the root file). -/
def resolvePath (rootPath ref : String) : String :=
  pathParent rootPath ++ "/" ++ ref

/-- Modelled from the spec: `Path.as_uri()` on an absolute posix path. -/
def asUri (p : String) : String :=
  "file://" ++ p

/-- Modelled from the spec: the document container (benten/editing/cwldoc.py
is not among the sources): the parsed root node and the file path used as
the resolution root for relative run references. -/
structure CwlDoc where
  cwl_dict : CWLNode
  path : String

/-- The sub-process resolution part of `Step.from_doc` (workflow.py:112):
a scalar run reference is resolved against the filesystem (a missing file
is caught and turned into the "Could not find sub workflow" diagnostic
with an empty sub-process), any other node is the inline sub-process.
The filesystem is modelled from the spec as a finite map from resolved
paths to parsed documents. -/
def resolveRun (fs : List (String × CWLNode)) (rootPath : String)
    (runNode : CWLNode) (wf_error_list : List String) : CWLNode × List String :=
  match runNode with
  | CWLNode.scalar s =>
    match lookupStr fs (resolvePath rootPath s) with
    | some n => (n, wf_error_list)
    | none =>
      (emptyMap, wf_error_list ++
        ["Could not find sub workflow: " ++ s ++ " (resolved to "
          ++ asUri (resolvePath rootPath s) ++ ")"])
  | other => (other, wf_error_list)

/-- The two port comprehensions of `Step.from_doc` (workflow.py:124):
sink ports from the sub-process declared inputs, source ports from its
declared outputs, every port owned by the step and carrying no line. -/
def stepInterface (step_id : String) (sub_process : CWLNode) :
    Except PyErr (List (String × Port) × List (String × Port)) :=
  match nodeGetD sub_process "inputs" emptyMap with
  | Except.error e => Except.error e
  | Except.ok inN =>
    match iter_lom inN with
    | Except.error e => Except.error e
    | Except.ok sinkPairs =>
      match nodeGetD sub_process "outputs" emptyMap with
      | Except.error e => Except.error e
      | Except.ok outN =>
        match iter_lom outN with
        | Except.error e => Except.error e
        | Except.ok sourcePairs =>
          Except.ok
            (odFromList (sinkPairs.map (fun kv =>
               (kv.1, ({ node_id := some step_id, port_id := kv.1, line := none } : Port)))),
             odFromList (sourcePairs.map (fun kv =>
               (kv.1, ({ node_id := some step_id, port_id := kv.1, line := none } : Port)))))

/-- Translation of `Step.from_doc` (workflow.py:105).  A step document
that is `None` or has no `run` key yields empty sinks and sources; a
missing sub-workflow file is caught (see `resolveRun`); the Step is
assembled from the resolved sub-process interface. -/
def Step.from_doc (fs : List (String × CWLNode)) (step_id : String) (ln : Nat × Nat)
    (step_doc : CWLNode) (rootPath : String) (wf_error_list : List String) :
    Except PyErr (Step × List String) :=
  match step_doc with
  | CWLNode.null =>
    Except.ok ({ id := step_id, line := ln, available_sinks := [], available_sources := [] },
      wf_error_list)
  | sd =>
    match pyContainsKey sd "run" with
    | Except.error e => Except.error e
    | Except.ok false =>
      Except.ok ({ id := step_id, line := ln, available_sinks := [], available_sources := [] },
        wf_error_list)
    | Except.ok true =>
        match nodeGet sd "run" with
        | Except.error e => Except.error e
        | Except.ok runNode =>
          let spErrs : CWLNode × List String := resolveRun fs rootPath runNode wf_error_list
          match stepInterface step_id spErrs.1 with
          | Except.error e => Except.error e
          | Except.ok (sinks, sources) =>
            Except.ok
              ({ id := step_id, line := ln,
                 available_sinks := sinks, available_sources := sources }, spErrs.2)

/-- Translation of `Workflow._get_step_source` (workflow.py:198).  The
two-name tuple unpack of `split("/")` is a `ValueError` when the split
does not yield exactly two parts; that exception is not a
`WFConnectionError`. -/
def getStepSource (steps : List (String × Step)) (src : String) : Except PyErr Port :=
  match pySplitSlash src with
  | [] => Except.error (PyErr.valueError "not enough values to unpack (expected 2, got 0)")
  | [_] => Except.error (PyErr.valueError "not enough values to unpack (expected 2, got 1)")
  | [a, b] =>
    match lookupStr steps a with
    | none => Except.error (PyErr.wf ("No such source step " ++ a))
    | some st =>
      match lookupStr st.available_sources b with
      | none => Except.error (PyErr.wf ("No such source port " ++ a ++ "." ++ b))
      | some p => Except.ok p
  | _ => Except.error (PyErr.valueError "too many values to unpack (expected 2)")

/-- Translation of `Workflow._get_source` (workflow.py:187).  A source
reference taken from the document is a node: `None` or the empty string is
"No source specified"; a string with a `/` goes to the step-source lookup,
any other string to the workflow-input lookup; a non-scalar reference is a
`TypeError` as the `in` test on it would be in Python. -/
def getSource (inputs : List (String × Port)) (steps : List (String × Step))
    (src : CWLNode) : Except PyErr Port :=
  match src with
  | CWLNode.null => Except.error (PyErr.wf "No source specified")
  | CWLNode.scalar s =>
    if s = "" then Except.error (PyErr.wf "No source specified")
    else if pyStrContainsChar s '/' then getStepSource steps s
    else
      match lookupStr inputs s with
      | none => Except.error (PyErr.wf ("No such WF input " ++ s))
      | some p => Except.ok p
  | _ => Except.error (PyErr.typeError "argument is not a string")

/-- The per-reference loop of `_list_connections` (workflow.py:237 and
252): for each source reference, on success append a Connection carrying
the source port's line, on `WFConnectionError` append a diagnostic
`label ++ ": " ++ message` and continue; any other exception propagates.
`label` is `repr(step) ++ "." ++ sink_id` in the step pass and the bare
output port id in the outputs pass. -/
def processSourceRefs (inputs : List (String × Port)) (steps : List (String × Step))
    (label : String) (sink : Port) :
    List CWLNode → Except PyErr (List Connection × List String)
  | [] => Except.ok ([], [])
  | r :: rest =>
    match getSource inputs steps r with
    | Except.ok source =>
      match processSourceRefs inputs steps label sink rest with
      | Except.error e => Except.error e
      | Except.ok (cs, ps) =>
        Except.ok ({ src := source, dst := sink, line := source.line } :: cs, ps)
    | Except.error (PyErr.wf m) =>
      match processSourceRefs inputs steps label sink rest with
      | Except.error e => Except.error e
      | Except.ok (cs, ps) => Except.ok (cs, (label ++ ": " ++ m) :: ps)
    | Except.error e => Except.error e

/-- The sink loop of the step pass of `_list_connections`
(workflow.py:225): unknown sinks are diagnosed, bindings without a
`source` field are skipped silently, others are resolved per reference. -/
def processStepIns (inputs : List (String × Port)) (steps : List (String × Step))
    (this_step : Step) :
    List (String × CWLNode) → Except PyErr (List Connection × List String)
  | [] => Except.ok ([], [])
  | (sid, port_doc) :: rest =>
    match lookupStr this_step.available_sinks sid with
    | none =>
      match processStepIns inputs steps this_step rest with
      | Except.error e => Except.error e
      | Except.ok (cs, ps) =>
        Except.ok (cs, ("No such sink: " ++ this_step.id ++ "." ++ sid) :: ps)
    | some sink =>
      match pyContainsKey port_doc "source" with
      | Except.error e => Except.error e
      | Except.ok hasSrc =>
        if hasSrc then
          match nodeGet port_doc "source" with
          | Except.error e => Except.error e
          | Except.ok srcNode =>
            match processSourceRefs inputs steps (Step.pyRepr this_step ++ "." ++ sid) sink
                (iter_scalar_or_list srcNode) with
            | Except.error e => Except.error e
            | Except.ok (cs1, ps1) =>
              match processStepIns inputs steps this_step rest with
              | Except.error e => Except.error e
              | Except.ok (cs2, ps2) => Except.ok (cs1 ++ cs2, ps1 ++ ps2)
        else processStepIns inputs steps this_step rest

/-- The step pass of `_list_connections` (workflow.py:218): a step whose
document node is not a Mapping is diagnosed as invalid and skipped; the
built Step is looked up in the steps dict (`KeyError` impossible in
practice, modelled as such). -/
def processSteps (inputs : List (String × Port)) (stepsDict : List (String × Step)) :
    List (String × CWLNode) → Except PyErr (List Connection × List String)
  | [] => Except.ok ([], [])
  | (step_id, step_doc) :: rest =>
    match step_doc with
    | CWLNode.map es a b =>
      match lookupStr stepsDict step_id with
      | none => Except.error (PyErr.keyError step_id)
      | some this_step =>
        match nodeGetD (CWLNode.map es a b) "in" emptyMap with
        | Except.error e => Except.error e
        | Except.ok inNode =>
          match pyIterPairs inNode with
          | Except.error e => Except.error e
          | Except.ok inPairs =>
            match processStepIns inputs stepsDict this_step inPairs with
            | Except.error e => Except.error e
            | Except.ok (cs1, ps1) =>
              match processSteps inputs stepsDict rest with
              | Except.error e => Except.error e
              | Except.ok (cs2, ps2) => Except.ok (cs1 ++ cs2, ps1 ++ ps2)
    | _ =>
      match processSteps inputs stepsDict rest with
      | Except.error e => Except.error e
      | Except.ok (cs, ps) => Except.ok (cs, ("Invalid step: " ++ step_id) :: ps)

/-- The outputs pass of `_list_connections` (workflow.py:246): workflow
outputs with an `outputSource` field are resolved per reference, with
diagnostics labelled by the output port id alone. -/
def processOutputs (inputs : List (String × Port)) (steps : List (String × Step))
    (outputsDict : List (String × Port)) :
    List (String × CWLNode) → Except PyErr (List Connection × List String)
  | [] => Except.ok ([], [])
  | (out_id, out_doc) :: rest =>
    match lookupStr outputsDict out_id with
    | none => Except.error (PyErr.keyError out_id)
    | some sink =>
      match pyContainsKey out_doc "outputSource" with
      | Except.error e => Except.error e
      | Except.ok hasOS =>
        if hasOS then
          match nodeGet out_doc "outputSource" with
          | Except.error e => Except.error e
          | Except.ok osNode =>
            match processSourceRefs inputs steps sink.port_id sink
                (iter_scalar_or_list osNode) with
            | Except.error e => Except.error e
            | Except.ok (cs1, ps1) =>
              match processOutputs inputs steps outputsDict rest with
              | Except.error e => Except.error e
              | Except.ok (cs2, ps2) => Except.ok (cs1 ++ cs2, ps1 ++ ps2)
        else processOutputs inputs steps outputsDict rest

/-- The required-section check of `Workflow.__init__` (workflow.py:163). -/
def requiredSections : List String :=
  ["cwlVersion", "class", "inputs", "outputs", "steps"]

/-- The diagnostic for a missing required section. -/
def missingDiag (sec : String) : String :=
  sq ++ sec ++ sq ++ " missing"

/-- The section sweep of `Workflow.__init__`, over any tail of the
required-section list. -/
def sectionProblemsAux (d : CWLNode) : List String → Except PyErr (List String)
  | [] => Except.ok []
  | sec :: rest =>
    match pyContainsKey d sec with
    | Except.error e => Except.error e
    | Except.ok b =>
      match sectionProblemsAux d rest with
      | Except.error e => Except.error e
      | Except.ok ps => Except.ok (if b then ps else missingDiag sec :: ps)

/-- All missing-section diagnostics of a document, in order. -/
def sectionProblems (d : CWLNode) : Except PyErr (List String) :=
  sectionProblemsAux d requiredSections

/-- The input/output port construction of `Workflow.__init__`
(workflow.py:168 and 173): one workflow-level Port per declared pair,
anchored to the value node's line span (an `AttributeError` when the
value is a scalar, which has no span). -/
def buildPorts : List (String × CWLNode) → Except PyErr (List (String × Port))
  | [] => Except.ok []
  | (k, v) :: rest =>
    match nodeLines v with
    | Except.error e => Except.error e
    | Except.ok ln =>
      match buildPorts rest with
      | Except.error e => Except.error e
      | Except.ok ps =>
        Except.ok ((k, ({ node_id := none, port_id := k, line := some ln } : Port)) :: ps)

/-- The step construction of `Workflow.__init__` (workflow.py:178),
threading the shared problems list through `Step.from_doc`. -/
def buildSteps (fs : List (String × CWLNode)) (rootPath : String) :
    List (String × CWLNode) → List String → Except PyErr (List (String × Step) × List String)
  | [], probs => Except.ok ([], probs)
  | (k, v) :: rest, probs =>
    match nodeLines v with
    | Except.error e => Except.error e
    | Except.ok ln =>
      match Step.from_doc fs k ln v rootPath probs with
      | Except.error e => Except.error e
      | Except.ok (st, probs2) =>
        match buildSteps fs rootPath rest probs2 with
        | Except.error e => Except.error e
        | Except.ok (sts, probs3) => Except.ok ((k, st) :: sts, probs3)

/-- Translation of class `Workflow` (workflow.py:154): the housekeeping
structures built by `__init__`. -/
structure Workflow where
  problems_with_wf : List String
  inputs : List (String × Port)
  outputs : List (String × Port)
  steps : List (String × Step)
  connections : List Connection
deriving DecidableEq, Repr

/-- Translation of `Workflow.__init__` (workflow.py:157) together with
`_list_connections`: section sweep, inputs, outputs, steps, then the two
connection passes, with the problems accumulated in that order.  Any
Python exception other than the `WFConnectionError`s caught around
`_get_source` aborts construction with that error. -/
def buildWorkflow (fs : List (String × CWLNode)) (cwl_doc : CwlDoc) :
    Except PyErr Workflow :=
  match sectionProblems cwl_doc.cwl_dict with
  | Except.error e => Except.error e
  | Except.ok probs1 =>
    match nodeGetD cwl_doc.cwl_dict "inputs" emptyMap with
    | Except.error e => Except.error e
    | Except.ok inNode =>
      match pyIterPairs inNode with
      | Except.error e => Except.error e
      | Except.ok inPairs =>
        match buildPorts inPairs with
        | Except.error e => Except.error e
        | Except.ok inputsL =>
          match nodeGetD cwl_doc.cwl_dict "outputs" emptyMap with
          | Except.error e => Except.error e
          | Except.ok outNode =>
            match pyIterPairs outNode with
            | Except.error e => Except.error e
            | Except.ok outPairs =>
              match buildPorts outPairs with
              | Except.error e => Except.error e
              | Except.ok outputsL =>
                match nodeGetD cwl_doc.cwl_dict "steps" emptyMap with
                | Except.error e => Except.error e
                | Except.ok stNode =>
                  match pyIterPairs stNode with
                  | Except.error e => Except.error e
                  | Except.ok stPairs =>
                    match buildSteps fs cwl_doc.path stPairs probs1 with
                    | Except.error e => Except.error e
                    | Except.ok (stepsL, probs2) =>
                      match processSteps (odFromList inputsL) (odFromList stepsL) stPairs with
                      | Except.error e => Except.error e
                      | Except.ok (cs1, ps1) =>
                        match processOutputs (odFromList inputsL) (odFromList stepsL)
                            (odFromList outputsL) outPairs with
                        | Except.error e => Except.error e
                        | Except.ok (cs2, ps2) =>
                          Except.ok
                            { problems_with_wf := probs2 ++ ps1 ++ ps2,
                              inputs := odFromList inputsL,
                              outputs := odFromList outputsL,
                              steps := odFromList stepsL,
                              connections := cs1 ++ cs2 }

/-- Translation of `Workflow.find_connection` (workflow.py:262): linear
scan for the first structurally equal connection, returning its stored
line (itself possibly absent); no match returns nothing. -/
def Workflow.find_connection (wf : Workflow) (conn : Connection) : Option (Nat × Nat) :=
  match wf.connections.find? (fun c => Connection.pyEq c conn) with
  | some c => c.line
  | none => none

/-- An inline sub-process with one input `in1` and no outputs. -/
def runIn1 : CWLNode :=
  CWLNode.map
    [("inputs", CWLNode.map [("in1", CWLNode.map [] 8 8)] 7 8),
     ("outputs", CWLNode.map [] 9 9)] 6 9

/-- An inline sub-process with inputs `in1`, `in2` and no outputs. -/
def runIn1In2 : CWLNode :=
  CWLNode.map
    [("inputs", CWLNode.map [("in1", CWLNode.map [] 8 8), ("in2", CWLNode.map [] 9 9)] 7 9),
     ("outputs", CWLNode.map [] 10 10)] 6 10

/-- An inline sub-process with input `in1` and output `out1`. -/
def runIn1Out1 : CWLNode :=
  CWLNode.map
    [("inputs", CWLNode.map [("in1", CWLNode.map [] 8 8)] 7 8),
     ("outputs", CWLNode.map [("out1", CWLNode.map [] 10 10)] 9 10)] 6 10

/-- An inline sub-process with no inputs and output `out1`. -/
def runOut1 : CWLNode :=
  CWLNode.map
    [("inputs", CWLNode.map [] 7 7),
     ("outputs", CWLNode.map [("out1", CWLNode.map [] 9 9)] 8 9)] 6 9

/-- A complete root mapping around a given steps mapping and inputs
mapping (all five required sections present). -/
def rootDoc (inputsNode : CWLNode) (stepsNode : CWLNode) : CwlDoc :=
  { cwl_dict := CWLNode.map
      [("cwlVersion", CWLNode.scalar "v1.0"),
       ("class", CWLNode.scalar "Workflow"),
       ("inputs", inputsNode),
       ("outputs", CWLNode.map [] 3 3),
       ("steps", stepsNode)] 0 20,
    path := "/wf/main.cwl" }

/-- An `inputs` mapping declaring the single workflow input `x` on lines
2-2. -/
def inputsX : CWLNode :=
  CWLNode.map [("x", CWLNode.map [("type", CWLNode.scalar "string")] 2 2)] 1 2

/-- A step document binding a single sink to the given source node. -/
def stepDocIn1 (run : CWLNode) (srcNode : CWLNode) : CWLNode :=
  CWLNode.map
    [("run", run),
     ("in", CWLNode.map [("in1", CWLNode.map [("source", srcNode)] 12 12)] 11 12)] 5 12

/-- The document of the split-unpack failure: a well-formed workflow whose
only flaw is a source reference with two slashes. -/
def docSlash : CwlDoc :=
  rootDoc (CWLNode.map [] 1 1)
    (CWLNode.map [("A", stepDocIn1 runIn1 (CWLNode.scalar "A/b/c"))] 4 12)

/-- Workflow input `x`, step `A` with sink `in1` bound to `source: x`. -/
def docConn : CwlDoc :=
  rootDoc inputsX (CWLNode.map [("A", stepDocIn1 runIn1 (CWLNode.scalar "x"))] 4 12)

/-- Workflow input `x`, step `A` with sink `in1` bound to the undeclared
`source: y`. -/
def docDangling : CwlDoc :=
  rootDoc inputsX (CWLNode.map [("A", stepDocIn1 runIn1 (CWLNode.scalar "y"))] 4 12)

/-- Workflow input `x`, step `A` with `in1: \x7bsource: y\x7d` (undeclared) and
`in2: \x7bsource: x\x7d` (declared): a bad reference followed by a good
sibling. -/
def docDanglingSibling : CwlDoc :=
  rootDoc inputsX
    (CWLNode.map
      [("A", CWLNode.map
        [("run", runIn1In2),
         ("in", CWLNode.map
           [("in1", CWLNode.map [("source", CWLNode.scalar "y")] 12 12),
            ("in2", CWLNode.map [("source", CWLNode.scalar "x")] 13 13)] 11 13)] 5 13)] 4 13)

/-- Step `S1` runs a missing file, step `S2` an inline sub-process. -/
def docMissingRun : CwlDoc :=
  rootDoc (CWLNode.map [] 1 1)
    (CWLNode.map
      [("S1", CWLNode.map [("run", CWLNode.scalar "missing.cwl")] 5 5),
       ("S2", CWLNode.map [("run", runIn1Out1)] 6 16)] 4 16)

/-- Workflow input `x`, step `A` with `in1: \x7bsource: [x, A/out1]\x7d`. -/
def docMultiSource : CwlDoc :=
  rootDoc inputsX
    (CWLNode.map [("A", stepDocIn1 runIn1Out1 (CWLNode.list
      [CWLNode.scalar "x", CWLNode.scalar "A/out1"] 12 12))] 4 12)

/-- Steps `A` (output `out1`) and `B` (sink `in1` bound to `A/out1`): a
step-to-step connection, whose stored line is nothing. -/
def docStepConn : CwlDoc :=
  rootDoc (CWLNode.map [] 1 1)
    (CWLNode.map
      [("A", CWLNode.map [("run", runOut1)] 5 9),
       ("B", stepDocIn1 runIn1 (CWLNode.scalar "A/out1"))] 4 12)

/-- Workflow input `x`, step `A` with `in1: \x7bsource: [x, x]\x7d`: the same
reference listed twice. -/
def docDupSource : CwlDoc :=
  rootDoc inputsX
    (CWLNode.map [("A", stepDocIn1 runIn1 (CWLNode.list
      [CWLNode.scalar "x", CWLNode.scalar "x"] 12 12))] 4 12)

/-- A document with every required section except `outputs`. -/
def docNoOutputs : CwlDoc :=
  { cwl_dict := CWLNode.map
      [("cwlVersion", CWLNode.scalar "v1.0"),
       ("class", CWLNode.scalar "Workflow"),
       ("inputs", CWLNode.map [] 1 1),
       ("steps", CWLNode.map [] 2 2)] 0 2,
    path := "/wf/main.cwl" }

/-- The diagnostic actually produced for `docDangling`: the step is
rendered through `Step.__repr__`, not as its bare id. -/
def diagDangling : String :=
  odictKeysRepr ["in1"] ++ "->A->" ++ odictKeysRepr [] ++ ".in1: No such WF input y"

/-- The diagnostic actually produced for `docDanglingSibling`. -/
def diagDanglingSibling : String :=
  odictKeysRepr ["in1", "in2"] ++ "->A->" ++ odictKeysRepr [] ++ ".in1: No such WF input y"

/-- The connection built from `source: x` into `A.in1`. -/
def connXIn1 : Connection :=
  { src := { node_id := none, port_id := "x", line := some (2, 2) },
    dst := { node_id := some "A", port_id := "in1", line := none },
    line := some (2, 2) }

/-- The step-to-step connection of `docStepConn`, stored with no line. -/
def storedStepConn : Connection :=
  { src := { node_id := some "A", port_id := "out1", line := none },
    dst := { node_id := some "B", port_id := "in1", line := none },
    line := none }

/-- A candidate with the same endpoints as `storedStepConn` but a present
line value. -/
def candStepConn : Connection :=
  { src := { node_id := some "A", port_id := "out1", line := none },
    dst := { node_id := some "B", port_id := "in1", line := none },
    line := some (9, 9) }

/-- C1: the spec guarantees that `build` never raises past its boundary
for any document that parses to a valid node tree.  The code violates
this: a source reference containing two slashes makes the two-name tuple
unpack in `_get_step_source` raise `ValueError`, which the
`except WFConnectionError` handler in `_list_connections` does not catch,
so construction aborts with an exception instead of a diagnostic.  On
`docSlash` (an otherwise well-formed document whose only flaw is
`source: A/b/c`) the build evaluates to that escaped error. -/
theorem c1_build_raises_on_double_slash :
    buildWorkflow [] docSlash
      = Except.error (PyErr.valueError "too many values to unpack (expected 2)") := by
  rfl

/-- C3: on a document declaring workflow input `x`, step `A` with sink
`in1` and binding `in1: source x`, the built connection list holds exactly
one Connection, whose src equals `Port(None, "x")` and whose dst equals
`Port("A", "in1")` under the structural port equality of the code. -/
theorem c3_single_connection :
    (buildWorkflow [] docConn).map (fun w =>
      w.connections.map (fun c =>
        (Port.pyEq c.src { node_id := none, port_id := "x", line := none },
         Port.pyEq c.dst { node_id := some "A", port_id := "in1", line := none })))
      = Except.ok [(true, true)] := by
  rfl

/-- C4 counterexample: for the dangling reference `source: y` the
connections list is empty as claimed, but the single problem entry embeds
the Step repr (`odict_keys` views joined with arrows), so no entry matches
the claimed form `A.in1: No such WF input y`, not even as a substring. -/
theorem c4_counterexample :
    ((buildWorkflow [] docDangling).map (fun w => (w.connections, w.problems_with_wf))
        = Except.ok ([], [diagDangling]))
    ∧ containsSub ("A.in1: No such WF input y").data diagDangling.data = false := by
  exact ⟨by rfl, by decide⟩

/-- C4 amended: the per-reference failure diagnostic has the form
`repr(step) ++ "." ++ sink ++ ": " ++ reason`, where `repr(step)` is the
`odict_keys([...])->id->odict_keys([...])` rendering; and one bad
reference does not stop the processing of sibling references: with
`in1: source y` (undeclared) and `in2: source x` (declared), the build
records the single repr-labelled diagnostic and still connects `x` to
`A.in2`. -/
theorem c4_amended_repr_diag :
    (buildWorkflow [] docDanglingSibling).map (fun w =>
      (w.problems_with_wf,
       w.connections.map (fun c => (c.src.node_id, c.src.port_id, c.dst.node_id, c.dst.port_id))))
      = Except.ok ([diagDanglingSibling], [(none, "x", some "A", "in2")]) := by
  rfl

/-- C8 counterexample: the stored step-to-step connection of `docStepConn`
has line `None`; a candidate with the same src and dst but a different
(present) line finds it, yet `find_connection` returns the stored `None`
line, which is "nothing" at the interface — the claimed "(not nothing)"
fails. -/
theorem c8_counterexample :
    ((buildWorkflow [] docStepConn).map (fun w =>
        (w.connections, w.find_connection candStepConn))
      = Except.ok ([storedStepConn], none))
    ∧ Connection.pyEq storedStepConn candStepConn = true
    ∧ candStepConn.line ≠ storedStepConn.line := by
  exact ⟨by rfl, by decide, by decide⟩

/-- C9 counterexample: the claim that the connections list holds at most
one Connection per ordered (src, dst) pair fails on the code: a sink whose
source list repeats a reference (`source: [x, x]`) stores two identical
Connections. -/
theorem c9_counterexample :
    (buildWorkflow [] docDupSource).map (fun w => w.connections)
      = Except.ok [connXIn1, connXIn1] := by
  rfl

/-- Rebuilding a string from its character list is the identity. -/
theorem stringMk_data (s : String) : String.mk s.data = s := rfl

/-- Splitting on a character absent from the list yields the whole list as
the single part. -/
theorem splitOnChar_not_contains (c : Char) :
    ∀ l : List Char, charListContains c l = false → splitOnChar c l = [l] := by
  intro l
  induction l with
  | nil => intro _; rfl
  | cons x xs ih =>
    intro h
    rw [charListContains] at h
    by_cases hx : x = c
    · simp [hx] at h
    · rw [if_neg hx] at h
      rw [splitOnChar, if_neg hx, ih h]

/-- A successful association-list lookup implies key membership. -/
theorem lookup_hasKey {α : Type} (es : List (String × α)) (k : String) (v : α)
    (h : lookupStr es k = some v) : hasKeyB es k = true := by
  rw [lookupStr] at h
  cases hf : es.find? (fun p => p.1 == k) with
  | none => rw [hf] at h; cases h
  | some pr =>
    have hmem := List.mem_of_find?_eq_some hf
    have hkey := List.find?_some hf
    exact List.any_eq_true.mpr ⟨pr, hmem, hkey⟩

/-- If some member of a list satisfies the predicate, `find?` returns a
member satisfying it. -/
theorem find?_exists {α : Type} (p : α → Bool) :
    ∀ (l : List α) (a : α), a ∈ l → p a = true →
      ∃ b, l.find? p = some b ∧ b ∈ l ∧ p b = true := by
  intro l
  induction l with
  | nil => intro a ha; cases ha
  | cons x xs ih =>
    intro a ha hp
    by_cases hx : p x = true
    · exact ⟨x, by simp [List.find?, hx], List.mem_cons_self x xs, hx⟩
    · rcases List.mem_cons.mp ha with h | h
      · subst h; exact absurd hp hx
      · rcases ih a h hp with ⟨b, hb1, hb2, hb3⟩
        refine ⟨b, ?_, List.mem_cons_of_mem x hb2, hb3⟩
        simp [List.find?, Bool.eq_false_iff.mpr hx, hb1]

/-- Each successfully processed reference list yields one connection or
one diagnostic per listed reference. -/
theorem processSourceRefs_length
    (inputs : List (String × Port)) (steps : List (String × Step))
    (label : String) (sink : Port) :
    ∀ (refs : List CWLNode) (cs : List Connection) (ps : List String),
      processSourceRefs inputs steps label sink refs = Except.ok (cs, ps) →
      cs.length + ps.length = refs.length := by
  intro refs
  induction refs with
  | nil =>
    intro cs ps h
    rw [processSourceRefs] at h
    cases h
    rfl
  | cons r rest ih =>
    intro cs ps h
    rw [processSourceRefs] at h
    cases hg : getSource inputs steps r with
    | ok source =>
      cases hrec : processSourceRefs inputs steps label sink rest with
      | error e => rw [hg, hrec] at h; simp at h
      | ok pr =>
        obtain ⟨cs2, ps2⟩ := pr
        rw [hg, hrec] at h
        simp at h
        obtain ⟨h1, h2⟩ := h
        subst h1; subst h2
        have := ih cs2 ps2 hrec
        simp only [List.length_cons]
        omega
    | error e =>
      cases e with
      | wf m =>
        cases hrec : processSourceRefs inputs steps label sink rest with
        | error e2 => rw [hg, hrec] at h; simp at h
        | ok pr =>
          obtain ⟨cs2, ps2⟩ := pr
          rw [hg, hrec] at h
          simp at h
          obtain ⟨h1, h2⟩ := h
          subst h1; subst h2
          have := ih cs2 ps2 hrec
          simp only [List.length_cons]
          omega
      | valueError m => rw [hg] at h; simp at h
      | typeError m => rw [hg] at h; simp at h
      | attributeError m => rw [hg] at h; simp at h
      | keyError m => rw [hg] at h; simp at h

/-- C2 counterexample: a source reference containing two slashes is
claimed to split into a step id and a port id and resolve or fail with a
step/port diagnostic; instead the two-name unpack raises a `ValueError`
that is not a `WFConnectionError`, so it neither yields a Port nor a
diagnostic. -/
theorem c2_counterexample :
    getSource [] [] (CWLNode.scalar "a/b/c")
      = Except.error (PyErr.valueError "too many values to unpack (expected 2)") := by
  rfl

/-- C2 amended: resolution of a source reference behaves as claimed for
an absent or empty reference, for a slash-free reference (workflow-input
lookup) and for a reference with exactly one slash (step lookup, then
port lookup); a reference splitting into three or more parts instead
raises an uncaught `ValueError`. -/
theorem c2_source_resolution (inputs : List (String × Port))
    (steps : List (String × Step)) (s : String) :
    (getSource inputs steps CWLNode.null = Except.error (PyErr.wf "No source specified"))
    ∧ (getSource inputs steps (CWLNode.scalar "")
        = Except.error (PyErr.wf "No source specified"))
    ∧ (s ≠ "" → pyStrContainsChar s '/' = false →
        getSource inputs steps (CWLNode.scalar s) =
          match lookupStr inputs s with
          | none => Except.error (PyErr.wf ("No such WF input " ++ s))
          | some p => Except.ok p)
    ∧ (∀ a b : String, pySplitSlash s = [a, b] →
        getSource inputs steps (CWLNode.scalar s) =
          match lookupStr steps a with
          | none => Except.error (PyErr.wf ("No such source step " ++ a))
          | some st =>
            match lookupStr st.available_sources b with
            | none => Except.error (PyErr.wf ("No such source port " ++ a ++ "." ++ b))
            | some p => Except.ok p)
    ∧ (3 ≤ (pySplitSlash s).length →
        getSource inputs steps (CWLNode.scalar s)
          = Except.error (PyErr.valueError "too many values to unpack (expected 2)")) := by
  refine ⟨rfl, rfl, ?_, ?_, ?_⟩
  · intro h1 h2
    simp [getSource, h1, h2]
  · intro a b hsplit
    have hne : s ≠ "" := by
      intro hs
      subst hs
      simp [pySplitSlash, splitOnChar] at hsplit
    have hc : pyStrContainsChar s '/' = true := by
      cases hcc : charListContains '/' s.data with
      | false =>
        have hsp := splitOnChar_not_contains '/' s.data hcc
        rw [pySplitSlash, hsp] at hsplit
        simp at hsplit
      | true => exact hcc
    simp only [getSource, if_neg hne, hc, if_true]
    rw [getStepSource, hsplit]
  · intro hlen
    have hne : s ≠ "" := by
      intro hs
      subst hs
      simp [pySplitSlash, splitOnChar] at hlen
    have hc : pyStrContainsChar s '/' = true := by
      cases hcc : charListContains '/' s.data with
      | false =>
        have hsp := splitOnChar_not_contains '/' s.data hcc
        rw [pySplitSlash, hsp] at hlen
        simp at hlen
      | true => exact hcc
    simp only [getSource, if_neg hne, hc, if_true]
    rcases hsp : pySplitSlash s with _ | ⟨x, _ | ⟨y, _ | ⟨z, t⟩⟩⟩
    · rw [hsp] at hlen; simp at hlen
    · rw [hsp] at hlen; simp at hlen
    · rw [hsp] at hlen; simp at hlen
    · rw [getStepSource, hsp]

/-- C2 witness: a reference with exactly one slash resolving to an
existing step output port. -/
theorem c2_witness :
    getSource []
      [("A", { id := "A", line := (0, 0), available_sinks := [],
               available_sources :=
                 [("out1", { node_id := some "A", port_id := "out1", line := none })] })]
      (CWLNode.scalar "A/out1")
      = Except.ok { node_id := some "A", port_id := "out1", line := none } := by
  have h := (c2_source_resolution []
    [("A", { id := "A", line := (0, 0), available_sinks := [],
             available_sources :=
               [("out1", { node_id := some "A", port_id := "out1", line := none })] })]
    "A/out1").2.2.2.1 "A" "out1" (by rfl)
  exact h

/-- C5: a step whose run reference is a path not present on the
filesystem still yields a Step with empty sinks and sources, appends the
"Could not find sub workflow" diagnostic with the raw reference and the
resolved location, and building continues with the remaining steps (in
the concrete document, `S1` is degraded while `S2` keeps its ports). -/
theorem c5_missing_subprocess :
    (∀ (fs : List (String × CWLNode)) (step_id : String) (ln : Nat × Nat)
        (es : List (String × CWLNode)) (a b : Nat) (rootPath : String)
        (probs : List String) (s : String),
        lookupStr es "run" = some (CWLNode.scalar s) →
        lookupStr fs (resolvePath rootPath s) = none →
        Step.from_doc fs step_id ln (CWLNode.map es a b) rootPath probs =
          Except.ok
            ({ id := step_id, line := ln, available_sinks := [], available_sources := [] },
             probs ++ ["Could not find sub workflow: " ++ s ++ " (resolved to "
               ++ asUri (resolvePath rootPath s) ++ ")"]))
    ∧ ((buildWorkflow [] docMissingRun).map (fun w =>
        (w.steps.map (fun q =>
          (q.1, q.2.available_sinks.map Prod.fst, q.2.available_sources.map Prod.fst)),
         w.problems_with_wf))
      = Except.ok ([("S1", [], []), ("S2", ["in1"], ["out1"])],
          ["Could not find sub workflow: missing.cwl (resolved to file:///wf/missing.cwl)"])) := by
  constructor
  · intro fs step_id ln es a b rootPath probs s h1 h2
    have hk : hasKeyB es "run" = true := lookup_hasKey es "run" _ h1
    simp only [Step.from_doc, pyContainsKey]
    rw [hk]
    simp only [nodeGet]
    rw [h1]
    simp only [resolveRun, h2]
    rfl
  · rfl

/-- C5 witness: the general missing-file case applied to the `S1` step of
the concrete document. -/
theorem c5_witness :
    Step.from_doc [] "S1" (5, 5) (CWLNode.map [("run", CWLNode.scalar "missing.cwl")] 5 5)
        "/wf/main.cwl" []
      = Except.ok
          ({ id := "S1", line := (5, 5), available_sinks := [], available_sources := [] },
           ["Could not find sub workflow: missing.cwl (resolved to file:///wf/missing.cwl)"]) := by
  have h := c5_missing_subprocess.1 [] "S1" (5, 5) [("run", CWLNode.scalar "missing.cwl")]
    5 5 "/wf/main.cwl" [] "missing.cwl" rfl rfl
  exact h

/-- C6: each listed reference of a sequence-valued source field
contributes one Connection attempt (one connection or one diagnostic per
reference), and the concrete `source: [x, A/out1]` binding yields exactly
two Connections with equal dst. -/
theorem c6_multi_source :
    (∀ (inputs : List (String × Port)) (steps : List (String × Step))
        (label : String) (sink : Port) (refs : List CWLNode)
        (cs : List Connection) (ps : List String),
        processSourceRefs inputs steps label sink refs = Except.ok (cs, ps) →
        cs.length + ps.length = refs.length)
    ∧ ((buildWorkflow [] docMultiSource).map (fun w =>
        w.connections.map (fun c => (c.src.node_id, c.src.port_id, c.dst)))
      = Except.ok
          [(none, "x", { node_id := some "A", port_id := "in1", line := none }),
           (some "A", "out1", { node_id := some "A", port_id := "in1", line := none })]) := by
  exact ⟨fun inputs steps label sink refs cs ps h =>
    processSourceRefs_length inputs steps label sink refs cs ps h, by rfl⟩

/-- C6 witness: a two-element reference list producing one connection and
one diagnostic. -/
theorem c6_witness :
    List.length [connXIn1] + List.length ["L: No source specified"] = 2 := by
  exact c6_multi_source.1 [("x", { node_id := none, port_id := "x", line := some (2, 2) })]
    [] "L" { node_id := some "A", port_id := "in1", line := none }
    [CWLNode.scalar "x", CWLNode.scalar ""] [connXIn1] ["L: No source specified"] (by rfl)

/-- C8 amended: a candidate with the same endpoints as some stored
connection makes `find_connection` return the line of the first stored
structurally equal connection — a value that may itself be nothing, since
port equality (and hence connection equality) ignores `line`. -/
theorem c8_find_connection_first_match :
    ∀ (w : Workflow) (cand c : Connection), c ∈ w.connections →
      Connection.pyEq c cand = true →
      ∃ c0, c0 ∈ w.connections ∧ Connection.pyEq c0 cand = true
        ∧ w.find_connection cand = c0.line := by
  intro w cand c hmem hp
  rcases find?_exists (fun x => Connection.pyEq x cand) w.connections c hmem hp
    with ⟨b, hb1, hb2, hb3⟩
  refine ⟨b, hb2, hb3, ?_⟩
  rw [Workflow.find_connection, hb1]

/-- The one-connection workflow used to witness the find_connection
lemmas. -/
def wStepConn : Workflow :=
  { problems_with_wf := [], inputs := [], outputs := [], steps := [],
    connections := [storedStepConn] }

/-- C8 witness: the first-match property applied to the concrete candidate
with a differing line value. -/
theorem c8_witness :
    ∃ c0, c0 ∈ wStepConn.connections ∧ Connection.pyEq c0 candStepConn = true
      ∧ wStepConn.find_connection candStepConn = c0.line :=
  c8_find_connection_first_match wStepConn candStepConn storedStepConn (by decide) (by decide)

/-- C9 amended: the connections list can hold several Connections with the
same ordered (src, dst) pair — the build of `source: [x, x]` stores two —
and `find_connection`'s linear scan returns the line of the earliest
matching entry. -/
theorem c9_parallel_edges :
    ((buildWorkflow [] docDupSource).map (fun w =>
        (w.connections.length, w.find_connection connXIn1)) = Except.ok (2, some (2, 2)))
    ∧ (∀ (w : Workflow) (c : Connection) (rest : List Connection) (cand : Connection),
        w.connections = c :: rest → Connection.pyEq c cand = true →
        w.find_connection cand = c.line) := by
  constructor
  · rfl
  · intro w c rest cand hconn hp
    rw [Workflow.find_connection, hconn]
    simp [List.find?, hp]

/-- C9 witness: the earliest-match property applied to a concrete
one-connection workflow. -/
theorem c9_witness :
    (({ problems_with_wf := [], inputs := [], outputs := [], steps := [],
        connections := [connXIn1] } : Workflow)).find_connection connXIn1 = some (2, 2) := by
  exact c9_parallel_edges.2 _ connXIn1 [] connXIn1 rfl (by decide)

/-- Appending strings concatenates their character lists. -/
theorem string_data_append (a b : String) : (a ++ b).data = a.data ++ b.data := rfl

/-- Character membership distributes over list append. -/
theorem charListContains_append (c : Char) :
    ∀ l1 l2 : List Char,
      charListContains c (l1 ++ l2) = (charListContains c l1 || charListContains c l2) := by
  intro l1 l2
  induction l1 with
  | nil => rfl
  | cons x xs ih =>
    rw [List.cons_append, charListContains, charListContains]
    by_cases hx : x = c
    · simp [hx]
    · rw [if_neg hx, if_neg hx, ih]

/-- A character present in the left part is present in the appended
string. -/
theorem pyContainsChar_append_left (a b : String) (c : Char)
    (h : pyStrContainsChar a c = true) : pyStrContainsChar (a ++ b) c = true := by
  rw [pyStrContainsChar, string_data_append, charListContains_append]
  rw [pyStrContainsChar] at h
  rw [h]
  rfl

/-- A character present in the right part is present in the appended
string. -/
theorem pyContainsChar_append_right (a b : String) (c : Char)
    (h : pyStrContainsChar b c = true) : pyStrContainsChar (a ++ b) c = true := by
  rw [pyStrContainsChar, string_data_append, charListContains_append]
  rw [pyStrContainsChar] at h
  rw [h]
  simp

/-- No element of a list mapped onto distinct values counts as the target:
a list whose members all contain a colon counts no colon-free string. -/
theorem count_zero_of_colon (l : List String) (t : String)
    (hl : ∀ p ∈ l, pyStrContainsChar p ':' = true)
    (ht : pyStrContainsChar t ':' = false) : l.count t = 0 := by
  rw [List.count_eq_zero]
  intro hmem
  have := hl t hmem
  rw [ht] at this
  cases this

/-- Membership in a Python-ordered-dict built from pairs implies
membership among the pairs (updates re-insert the inserted pair itself). -/
theorem odFromList_mem {α : Type} :
    ∀ (l : List (String × α)) (q : String × α), q ∈ odFromList l → q ∈ l := by
  have haux : ∀ (l : List (String × α)) (acc : List (String × α)) (q : String × α),
      q ∈ l.foldl (fun od kv => odInsert od kv.1 kv.2) acc → q ∈ acc ∨ q ∈ l := by
    intro l
    induction l with
    | nil => intro acc q h; exact Or.inl h
    | cons kv rest ih =>
      intro acc q h
      rw [List.foldl_cons] at h
      rcases ih (odInsert acc kv.1 kv.2) q h with h2 | h2
      · rw [odInsert] at h2
        by_cases hk : acc.any (fun p => p.1 == kv.1) = true
        · rw [if_pos hk] at h2
          rcases List.mem_map.mp h2 with ⟨p, hp, hpe⟩
          by_cases hpk : p.1 == kv.1
          · rw [if_pos hpk] at hpe
            right
            rw [← hpe]
            exact List.mem_cons_self kv rest
          · rw [if_neg hpk] at hpe
            exact Or.inl (hpe ▸ hp)
        · rw [if_neg hk] at h2
          rcases List.mem_append.mp h2 with h3 | h3
          · exact Or.inl h3
          · right
            rcases List.mem_singleton.mp h3 with h4
            rw [h4]
            exact List.mem_cons_self kv rest
      · exact Or.inr (List.mem_cons_of_mem kv h2)
  intro l q h
  rcases haux l [] q h with h2 | h2
  · cases h2
  · exact h2

/-- A successful lookup returns the value of some stored pair. -/
theorem lookupStr_mem {α : Type} (l : List (String × α)) (k : String) (v : α)
    (h : lookupStr l k = some v) : ∃ q ∈ l, q.2 = v := by
  rw [lookupStr] at h
  cases hf : l.find? (fun p => p.1 == k) with
  | none => rw [hf] at h; cases h
  | some pr =>
    rw [hf] at h
    exact ⟨pr, List.mem_of_find?_eq_some hf, by injection h⟩

/-- Ports built for workflow inputs and outputs carry no owning node. -/
theorem buildPorts_node_id :
    ∀ (pairs : List (String × CWLNode)) (l : List (String × Port)),
      buildPorts pairs = Except.ok l → ∀ q ∈ l, (Prod.snd q).node_id = none := by
  intro pairs
  induction pairs with
  | nil =>
    intro l h q hq
    rw [buildPorts] at h
    cases h
    cases hq
  | cons kv rest ih =>
    intro l h q hq
    obtain ⟨k, v⟩ := kv
    rw [buildPorts] at h
    cases hln : nodeLines v with
    | error e => rw [hln] at h; cases h
    | ok ln =>
      rw [hln] at h
      cases hrest : buildPorts rest with
      | error e => rw [hrest] at h; cases h
      | ok ps =>
        rw [hrest] at h
        simp at h
        subst h
        rcases List.mem_cons.mp hq with h2 | h2
        · rw [h2]
        · exact ih ps hrest q h2

/-- On a Mapping root the section sweep never fails and produces exactly
the missing-section diagnostics, in order. -/
theorem sectionProblemsAux_map (es : List (String × CWLNode)) (a b : Nat) :
    ∀ L : List String,
      sectionProblemsAux (CWLNode.map es a b) L
        = Except.ok ((L.filter (fun sec => !hasKeyB es sec)).map missingDiag) := by
  intro L
  induction L with
  | nil => rfl
  | cons sec rest ih =>
    rw [sectionProblemsAux, ih]
    by_cases hk : hasKeyB es sec = true
    · simp [pyContainsKey, hk, List.filter_cons]
    · simp [pyContainsKey, hk, List.filter_cons]

/-- A map over elements never equal to the target counts zero targets. -/
theorem count_map_zero (f : String → String) (t : String) :
    ∀ M : List String, (∀ x ∈ M, ¬ f x = t) → (M.map f).count t = 0 := by
  intro M hM
  rw [List.count_eq_zero]
  intro hmem
  rcases List.mem_map.mp hmem with ⟨x, hx, hfx⟩
  exact hM x hx hfx

/-- Counting the image of a distinguished element through filter and map:
when the element occurs exactly once and nothing else maps onto its image,
the image occurs once if the element passes the filter and never
otherwise. -/
theorem count_filter_map (f : String → String) (p : String → Bool) :
    ∀ (L : List String) (sec : String),
      (∀ x ∈ L, x ≠ sec → ¬ f x = f sec) → L.count sec = 1 →
      ((L.filter p).map f).count (f sec) = if p sec then 1 else 0 := by
  intro L
  induction L with
  | nil =>
    intro sec hinj hcount
    simp at hcount
  | cons x xs ih =>
    intro sec hinj hcount
    by_cases hx : x = sec
    · subst hx
      have hxs : xs.count x = 0 := by
        have hcc := List.count_cons_self x xs
        omega
      have hnot : ∀ y ∈ xs, ¬ f y = f x := by
        intro y hy
        have hyne : y ≠ x := by
          intro he
          subst he
          rw [List.count_eq_zero] at hxs
          exact hxs hy
        exact hinj y (List.mem_cons_of_mem _ hy) hyne
      rw [List.filter_cons]
      by_cases hp : p x = true
      · rw [if_pos hp, List.map_cons]
        have hz : ((xs.filter p).map f).count (f x) = 0 := by
          apply count_map_zero
          intro y hy
          exact hnot y (List.mem_of_mem_filter hy)
        rw [List.count_cons_self, hz, if_pos hp]
      · rw [if_neg hp]
        have hz : ((xs.filter p).map f).count (f x) = 0 := by
          apply count_map_zero
          intro y hy
          exact hnot y (List.mem_of_mem_filter hy)
        rw [hz, if_neg hp]
    · have hcount2 : xs.count sec = 1 := by
        rw [List.count_cons] at hcount
        have hbe : (x == sec) = false := by
          simp
          exact hx
        rw [hbe] at hcount
        simpa using hcount
      have hinj2 : ∀ y ∈ xs, y ≠ sec → ¬ f y = f sec :=
        fun y hy => hinj y (List.mem_cons_of_mem _ hy)
      rw [List.filter_cons]
      by_cases hp : p x = true
      · rw [if_pos hp, List.map_cons, List.count_cons, ih sec hinj2 hcount2]
        have hfe : (f x == f sec) = false := by
          simp
          exact hinj x (List.mem_cons_self x xs) hx
        rw [hfe]
        simp
      · rw [if_neg hp]
        exact ih sec hinj2 hcount2

/-- The missing-section diagnostic list counts exactly one entry for each
absent required section and none for a present one. -/
theorem count_missing (es : List (String × CWLNode)) (sec : String)
    (hsec : sec ∈ requiredSections) :
    ((requiredSections.filter (fun t => !hasKeyB es t)).map missingDiag).count (missingDiag sec)
      = if hasKeyB es sec then 0 else 1 := by
  have hinj : ∀ x ∈ requiredSections, x ≠ sec → ¬ missingDiag x = missingDiag sec := by
    fin_cases hsec <;>
      (intro x hx hne
       fin_cases hx <;> first | (exact absurd rfl hne) | decide)
  have hcount : requiredSections.count sec = 1 := by
    fin_cases hsec <;> decide
  have h := count_filter_map missingDiag (fun t => !hasKeyB es t) requiredSections sec hinj hcount
  rw [h]
  by_cases hk : hasKeyB es sec = true <;> simp [hk]

/-- The missing-sub-workflow diagnostic contains a colon. -/
theorem colon_could_not_find (s u : String) :
    pyStrContainsChar ("Could not find sub workflow: " ++ s ++ " (resolved to " ++ u ++ ")")
      ':' = true := by
  apply pyContainsChar_append_left
  apply pyContainsChar_append_left
  apply pyContainsChar_append_left
  apply pyContainsChar_append_left
  decide

/-- Every per-reference failure diagnostic contains a colon. -/
theorem colon_label (label m : String) :
    pyStrContainsChar (label ++ ": " ++ m) ':' = true := by
  apply pyContainsChar_append_left
  apply pyContainsChar_append_right
  decide

/-- The unknown-sink diagnostic contains a colon. -/
theorem colon_no_such_sink (a b : String) :
    pyStrContainsChar ("No such sink: " ++ a ++ "." ++ b) ':' = true := by
  apply pyContainsChar_append_left
  apply pyContainsChar_append_left
  apply pyContainsChar_append_left
  decide

/-- The invalid-step diagnostic contains a colon. -/
theorem colon_invalid_step (a : String) :
    pyStrContainsChar ("Invalid step: " ++ a) ':' = true := by
  apply pyContainsChar_append_left
  decide

/-- `resolveRun` only appends problems, and every appended problem
contains a colon. -/
theorem resolveRun_probs (fs : List (String × CWLNode)) (rootPath : String)
    (runNode : CWLNode) (probs : List String) :
    ∃ news, (resolveRun fs rootPath runNode probs).2 = probs ++ news
      ∧ ∀ p ∈ news, pyStrContainsChar p ':' = true := by
  cases runNode with
  | scalar s =>
    rw [resolveRun]
    cases hfs : lookupStr fs (resolvePath rootPath s) with
    | some n => exact ⟨[], by simp, by intro p hp; cases hp⟩
    | none =>
      refine ⟨["Could not find sub workflow: " ++ s ++ " (resolved to "
        ++ asUri (resolvePath rootPath s) ++ ")"], rfl, ?_⟩
      intro p hp
      rw [List.mem_singleton.mp hp]
      exact colon_could_not_find s (asUri (resolvePath rootPath s))
  | null => exact ⟨[], by simp [resolveRun], by intro p hp; cases hp⟩
  | map es a b => exact ⟨[], by simp [resolveRun], by intro p hp; cases hp⟩
  | list its a b => exact ⟨[], by simp [resolveRun], by intro p hp; cases hp⟩

/-- `Step.from_doc` only appends problems, and every appended problem
contains a colon. -/
theorem fromDoc_probs (fs : List (String × CWLNode)) (step_id : String) (ln : Nat × Nat)
    (step_doc : CWLNode) (rootPath : String) (probs : List String)
    (st : Step) (probs2 : List String)
    (h : Step.from_doc fs step_id ln step_doc rootPath probs = Except.ok (st, probs2)) :
    ∃ news, probs2 = probs ++ news ∧ ∀ p ∈ news, pyStrContainsChar p ':' = true := by
  cases step_doc with
  | null =>
    simp only [Step.from_doc, Except.ok.injEq, Prod.mk.injEq] at h
    exact ⟨[], by rw [← h.2]; simp, by intro p hp; cases hp⟩
  | list its a b => simp [Step.from_doc, pyContainsKey] at h
  | scalar s =>
    cases hck : containsSub ("run").data s.data with
    | false =>
      simp only [Step.from_doc, pyContainsKey, hck, Except.ok.injEq, Prod.mk.injEq] at h
      exact ⟨[], by rw [← h.2]; simp, by intro p hp; cases hp⟩
    | true =>
      simp [Step.from_doc, pyContainsKey, hck, nodeGet] at h
  | map es a b =>
    cases hck : hasKeyB es "run" with
    | false =>
      simp only [Step.from_doc, pyContainsKey, hck, Except.ok.injEq, Prod.mk.injEq] at h
      exact ⟨[], by rw [← h.2]; simp, by intro p hp; cases hp⟩
    | true =>
      simp only [Step.from_doc, pyContainsKey, hck, nodeGet] at h
      cases hlk : lookupStr es "run" with
      | none => rw [hlk] at h; simp at h
      | some runNode =>
        simp only [hlk] at h
        cases hsi : stepInterface step_id (resolveRun fs rootPath runNode probs).1 with
        | error e => rw [hsi] at h; simp at h
        | ok pr =>
          obtain ⟨sinks, sources⟩ := pr
          rw [hsi] at h
          simp only [Except.ok.injEq, Prod.mk.injEq] at h
          rcases resolveRun_probs fs rootPath runNode probs with ⟨news, hn1, hn2⟩
          exact ⟨news, by rw [← h.2, hn1], hn2⟩

/-- `buildSteps` only appends problems, and every appended problem
contains a colon. -/
theorem buildSteps_probs (fs : List (String × CWLNode)) (rootPath : String) :
    ∀ (pairs : List (String × CWLNode)) (probs : List String)
      (l : List (String × Step)) (probs2 : List String),
      buildSteps fs rootPath pairs probs = Except.ok (l, probs2) →
      ∃ news, probs2 = probs ++ news ∧ ∀ p ∈ news, pyStrContainsChar p ':' = true := by
  intro pairs
  induction pairs with
  | nil =>
    intro probs l probs2 h
    rw [buildSteps] at h
    simp only [Except.ok.injEq, Prod.mk.injEq] at h
    exact ⟨[], by rw [← h.2]; simp, by intro p hp; cases hp⟩
  | cons kv rest ih =>
    intro probs l probs2 h
    obtain ⟨k, v⟩ := kv
    rw [buildSteps] at h
    cases hln : nodeLines v with
    | error e => rw [hln] at h; simp at h
    | ok ln =>
      simp only [hln] at h
      cases hfd : Step.from_doc fs k ln v rootPath probs with
      | error e => rw [hfd] at h; simp at h
      | ok pr =>
        obtain ⟨st, probsMid⟩ := pr
        simp only [hfd] at h
        cases hbs : buildSteps fs rootPath rest probsMid with
        | error e => rw [hbs] at h; simp at h
        | ok pr2 =>
          obtain ⟨sts, probs3⟩ := pr2
          simp only [hbs, Except.ok.injEq, Prod.mk.injEq] at h
          rcases fromDoc_probs fs k ln v rootPath probs st probsMid hfd with ⟨n1, hn1, hc1⟩
          rcases ih probsMid sts probs3 hbs with ⟨n2, hn2, hc2⟩
          refine ⟨n1 ++ n2, ?_, ?_⟩
          · rw [← h.2, hn2, hn1, List.append_assoc]
          · intro p hp
            rcases List.mem_append.mp hp with h3 | h3
            · exact hc1 p h3
            · exact hc2 p h3

/-- Every diagnostic produced by the per-reference loop contains a
colon. -/
theorem processSourceRefs_probs (inputs : List (String × Port))
    (steps : List (String × Step)) (label : String) (sink : Port) :
    ∀ (refs : List CWLNode) (cs : List Connection) (ps : List String),
      processSourceRefs inputs steps label sink refs = Except.ok (cs, ps) →
      ∀ p ∈ ps, pyStrContainsChar p ':' = true := by
  intro refs
  induction refs with
  | nil =>
    intro cs ps h p hp
    rw [processSourceRefs] at h
    cases h
    cases hp
  | cons r rest ih =>
    intro cs ps h p hp
    rw [processSourceRefs] at h
    cases hg : getSource inputs steps r with
    | ok source =>
      cases hrec : processSourceRefs inputs steps label sink rest with
      | error e => rw [hg, hrec] at h; simp at h
      | ok pr =>
        obtain ⟨cs2, ps2⟩ := pr
        rw [hg, hrec] at h
        simp only [Except.ok.injEq, Prod.mk.injEq] at h
        rw [← h.2] at hp
        exact ih cs2 ps2 hrec p hp
    | error e =>
      cases e with
      | wf m =>
        cases hrec : processSourceRefs inputs steps label sink rest with
        | error e2 => rw [hg, hrec] at h; simp at h
        | ok pr =>
          obtain ⟨cs2, ps2⟩ := pr
          rw [hg, hrec] at h
          simp only [Except.ok.injEq, Prod.mk.injEq] at h
          rw [← h.2] at hp
          rcases List.mem_cons.mp hp with h3 | h3
          · rw [h3]; exact colon_label label m
          · exact ih cs2 ps2 hrec p h3
      | valueError m => rw [hg] at h; simp at h
      | typeError m => rw [hg] at h; simp at h
      | attributeError m => rw [hg] at h; simp at h
      | keyError m => rw [hg] at h; simp at h

/-- Every diagnostic produced by the per-step sink loop contains a
colon. -/
theorem processStepIns_probs (inputs : List (String × Port))
    (steps : List (String × Step)) (this_step : Step) :
    ∀ (pairs : List (String × CWLNode)) (cs : List Connection) (ps : List String),
      processStepIns inputs steps this_step pairs = Except.ok (cs, ps) →
      ∀ p ∈ ps, pyStrContainsChar p ':' = true := by
  intro pairs
  induction pairs with
  | nil =>
    intro cs ps h p hp
    rw [processStepIns] at h
    cases h
    cases hp
  | cons kv rest ih =>
    intro cs ps h p hp
    obtain ⟨sid, port_doc⟩ := kv
    rw [processStepIns] at h
    cases hlk : lookupStr this_step.available_sinks sid with
    | none =>
      cases hrec : processStepIns inputs steps this_step rest with
      | error e => rw [hlk, hrec] at h; simp at h
      | ok pr =>
        obtain ⟨cs2, ps2⟩ := pr
        rw [hlk, hrec] at h
        simp only [Except.ok.injEq, Prod.mk.injEq] at h
        rw [← h.2] at hp
        rcases List.mem_cons.mp hp with h3 | h3
        · rw [h3]; exact colon_no_such_sink this_step.id sid
        · exact ih cs2 ps2 hrec p h3
    | some sink =>
      simp only [hlk] at h
      cases hck : pyContainsKey port_doc "source" with
      | error e => rw [hck] at h; simp at h
      | ok hasSrc =>
        simp only [hck] at h
        cases hasSrc with
        | false =>
          simp only [Bool.false_eq_true, if_false] at h
          exact ih cs ps h p hp
        | true =>
          simp only [if_true] at h
          cases hng : nodeGet port_doc "source" with
          | error e => rw [hng] at h; simp at h
          | ok srcNode =>
            simp only [hng] at h
            cases hpr : processSourceRefs inputs steps (Step.pyRepr this_step ++ "." ++ sid)
                sink (iter_scalar_or_list srcNode) with
            | error e => rw [hpr] at h; simp at h
            | ok pr1 =>
              obtain ⟨cs1, ps1⟩ := pr1
              simp only [hpr] at h
              cases hrec : processStepIns inputs steps this_step rest with
              | error e => rw [hrec] at h; simp at h
              | ok pr2 =>
                obtain ⟨cs2, ps2⟩ := pr2
                simp only [hrec, Except.ok.injEq, Prod.mk.injEq] at h
                rw [← h.2] at hp
                rcases List.mem_append.mp hp with h3 | h3
                · exact processSourceRefs_probs inputs steps
                    (Step.pyRepr this_step ++ "." ++ sid) sink
                    (iter_scalar_or_list srcNode) cs1 ps1 hpr p h3
                · exact ih cs2 ps2 hrec p h3

/-- Every diagnostic produced by the step pass contains a colon. -/
theorem processSteps_probs (inputs : List (String × Port))
    (stepsDict : List (String × Step)) :
    ∀ (pairs : List (String × CWLNode)) (cs : List Connection) (ps : List String),
      processSteps inputs stepsDict pairs = Except.ok (cs, ps) →
      ∀ p ∈ ps, pyStrContainsChar p ':' = true := by
  intro pairs
  induction pairs with
  | nil =>
    intro cs ps h p hp
    rw [processSteps] at h
    cases h
    cases hp
  | cons kv rest ih =>
    intro cs ps h p hp
    obtain ⟨step_id, step_doc⟩ := kv
    cases step_doc with
    | map es a b =>
      simp only [processSteps] at h
      cases hlk : lookupStr stepsDict step_id with
      | none => rw [hlk] at h; simp at h
      | some this_step =>
        simp only [hlk] at h
        cases hgd : nodeGetD (CWLNode.map es a b) "in" emptyMap with
        | error e => rw [hgd] at h; simp at h
        | ok inNode =>
          simp only [hgd] at h
          cases hip : pyIterPairs inNode with
          | error e => rw [hip] at h; simp at h
          | ok inPairs =>
            simp only [hip] at h
            cases hsi : processStepIns inputs stepsDict this_step inPairs with
            | error e => rw [hsi] at h; simp at h
            | ok pr1 =>
              obtain ⟨cs1, ps1⟩ := pr1
              simp only [hsi] at h
              cases hrec : processSteps inputs stepsDict rest with
              | error e => rw [hrec] at h; simp at h
              | ok pr2 =>
                obtain ⟨cs2, ps2⟩ := pr2
                simp only [hrec, Except.ok.injEq, Prod.mk.injEq] at h
                rw [← h.2] at hp
                rcases List.mem_append.mp hp with h3 | h3
                · exact processStepIns_probs inputs stepsDict this_step inPairs cs1 ps1 hsi p h3
                · exact ih cs2 ps2 hrec p h3
    | null =>
      simp only [processSteps] at h
      cases hrec : processSteps inputs stepsDict rest with
      | error e => rw [hrec] at h; simp at h
      | ok pr =>
        obtain ⟨cs2, ps2⟩ := pr
        rw [hrec] at h
        simp only [Except.ok.injEq, Prod.mk.injEq] at h
        rw [← h.2] at hp
        rcases List.mem_cons.mp hp with h3 | h3
        · rw [h3]; exact colon_invalid_step step_id
        · exact ih cs2 ps2 hrec p h3
    | scalar s =>
      simp only [processSteps] at h
      cases hrec : processSteps inputs stepsDict rest with
      | error e => rw [hrec] at h; simp at h
      | ok pr =>
        obtain ⟨cs2, ps2⟩ := pr
        rw [hrec] at h
        simp only [Except.ok.injEq, Prod.mk.injEq] at h
        rw [← h.2] at hp
        rcases List.mem_cons.mp hp with h3 | h3
        · rw [h3]; exact colon_invalid_step step_id
        · exact ih cs2 ps2 hrec p h3
    | list its a b =>
      simp only [processSteps] at h
      cases hrec : processSteps inputs stepsDict rest with
      | error e => rw [hrec] at h; simp at h
      | ok pr =>
        obtain ⟨cs2, ps2⟩ := pr
        rw [hrec] at h
        simp only [Except.ok.injEq, Prod.mk.injEq] at h
        rw [← h.2] at hp
        rcases List.mem_cons.mp hp with h3 | h3
        · rw [h3]; exact colon_invalid_step step_id
        · exact ih cs2 ps2 hrec p h3

/-- Every diagnostic produced by the outputs pass contains a colon. -/
theorem processOutputs_probs (inputs : List (String × Port))
    (steps : List (String × Step)) (outputsDict : List (String × Port)) :
    ∀ (pairs : List (String × CWLNode)) (cs : List Connection) (ps : List String),
      processOutputs inputs steps outputsDict pairs = Except.ok (cs, ps) →
      ∀ p ∈ ps, pyStrContainsChar p ':' = true := by
  intro pairs
  induction pairs with
  | nil =>
    intro cs ps h p hp
    rw [processOutputs] at h
    cases h
    cases hp
  | cons kv rest ih =>
    intro cs ps h p hp
    obtain ⟨out_id, out_doc⟩ := kv
    rw [processOutputs] at h
    cases hlk : lookupStr outputsDict out_id with
    | none => rw [hlk] at h; simp at h
    | some sink =>
      simp only [hlk] at h
      cases hck : pyContainsKey out_doc "outputSource" with
      | error e => rw [hck] at h; simp at h
      | ok hasOS =>
        simp only [hck] at h
        cases hasOS with
        | false =>
          simp only [Bool.false_eq_true, if_false] at h
          exact ih cs ps h p hp
        | true =>
          simp only [if_true] at h
          cases hng : nodeGet out_doc "outputSource" with
          | error e => rw [hng] at h; simp at h
          | ok osNode =>
            simp only [hng] at h
            cases hpr : processSourceRefs inputs steps sink.port_id sink
                (iter_scalar_or_list osNode) with
            | error e => rw [hpr] at h; simp at h
            | ok pr1 =>
              obtain ⟨cs1, ps1⟩ := pr1
              simp only [hpr] at h
              cases hrec : processOutputs inputs steps outputsDict rest with
              | error e => rw [hrec] at h; simp at h
              | ok pr2 =>
                obtain ⟨cs2, ps2⟩ := pr2
                simp only [hrec, Except.ok.injEq, Prod.mk.injEq] at h
                rw [← h.2] at hp
                rcases List.mem_append.mp hp with h3 | h3
                · exact processSourceRefs_probs inputs steps sink.port_id sink
                    (iter_scalar_or_list osNode) cs1 ps1 hpr p h3
                · exact ih cs2 ps2 hrec p h3

/-- Inversion of a successful build: every phase succeeded and the
workflow is assembled from the phase results. -/
theorem buildWorkflow_ok_inv (fs : List (String × CWLNode)) (d : CwlDoc) (w : Workflow)
    (h : buildWorkflow fs d = Except.ok w) :
    ∃ probs1 inNode inPairs inputsL outNode outPairs outputsL stNode stPairs stepsL
      probs2 cs1 ps1 cs2 ps2,
      sectionProblems d.cwl_dict = Except.ok probs1
      ∧ nodeGetD d.cwl_dict "inputs" emptyMap = Except.ok inNode
      ∧ pyIterPairs inNode = Except.ok inPairs
      ∧ buildPorts inPairs = Except.ok inputsL
      ∧ nodeGetD d.cwl_dict "outputs" emptyMap = Except.ok outNode
      ∧ pyIterPairs outNode = Except.ok outPairs
      ∧ buildPorts outPairs = Except.ok outputsL
      ∧ nodeGetD d.cwl_dict "steps" emptyMap = Except.ok stNode
      ∧ pyIterPairs stNode = Except.ok stPairs
      ∧ buildSteps fs d.path stPairs probs1 = Except.ok (stepsL, probs2)
      ∧ processSteps (odFromList inputsL) (odFromList stepsL) stPairs = Except.ok (cs1, ps1)
      ∧ processOutputs (odFromList inputsL) (odFromList stepsL) (odFromList outputsL) outPairs
          = Except.ok (cs2, ps2)
      ∧ w = { problems_with_wf := probs2 ++ ps1 ++ ps2,
              inputs := odFromList inputsL, outputs := odFromList outputsL,
              steps := odFromList stepsL, connections := cs1 ++ cs2 } := by
  rw [buildWorkflow] at h
  cases h1 : sectionProblems d.cwl_dict with
  | error e => rw [h1] at h; simp at h
  | ok probs1 =>
  simp only [h1] at h
  cases h2 : nodeGetD d.cwl_dict "inputs" emptyMap with
  | error e => rw [h2] at h; simp at h
  | ok inNode =>
  simp only [h2] at h
  cases h3 : pyIterPairs inNode with
  | error e => rw [h3] at h; simp at h
  | ok inPairs =>
  simp only [h3] at h
  cases h4 : buildPorts inPairs with
  | error e => rw [h4] at h; simp at h
  | ok inputsL =>
  simp only [h4] at h
  cases h5 : nodeGetD d.cwl_dict "outputs" emptyMap with
  | error e => rw [h5] at h; simp at h
  | ok outNode =>
  simp only [h5] at h
  cases h6 : pyIterPairs outNode with
  | error e => rw [h6] at h; simp at h
  | ok outPairs =>
  simp only [h6] at h
  cases h7 : buildPorts outPairs with
  | error e => rw [h7] at h; simp at h
  | ok outputsL =>
  simp only [h7] at h
  cases h8 : nodeGetD d.cwl_dict "steps" emptyMap with
  | error e => rw [h8] at h; simp at h
  | ok stNode =>
  simp only [h8] at h
  cases h9 : pyIterPairs stNode with
  | error e => rw [h9] at h; simp at h
  | ok stPairs =>
  simp only [h9] at h
  cases h10 : buildSteps fs d.path stPairs probs1 with
  | error e => rw [h10] at h; simp at h
  | ok pr10 =>
  obtain ⟨stepsL, probs2⟩ := pr10
  simp only [h10] at h
  cases h11 : processSteps (odFromList inputsL) (odFromList stepsL) stPairs with
  | error e => rw [h11] at h; simp at h
  | ok pr11 =>
  obtain ⟨cs1, ps1⟩ := pr11
  simp only [h11] at h
  cases h12 : processOutputs (odFromList inputsL) (odFromList stepsL) (odFromList outputsL)
      outPairs with
  | error e => rw [h12] at h; simp at h
  | ok pr12 =>
  obtain ⟨cs2, ps2⟩ := pr12
  simp only [h12, Except.ok.injEq] at h
  exact ⟨probs1, inNode, inPairs, inputsL, outNode, outPairs, outputsL, stNode, stPairs,
    stepsL, probs2, cs1, ps1, cs2, ps2, rfl, rfl, h3, h4, rfl, h6, h7, rfl, h9, h10, h11, h12,
    h.symm⟩

/-- C7: for every document whose root is a Mapping and for every required
top-level section, a successful build records the diagnostic
`'<section>' missing` exactly once when the section is absent and never
when it is present — later phases only add colon-bearing diagnostics, so
nothing else can collide with the apostrophe-quoted section message. -/
theorem c7_missing_section_diag :
    ∀ (fs : List (String × CWLNode)) (d : CwlDoc) (es : List (String × CWLNode))
      (a b : Nat) (w : Workflow),
      d.cwl_dict = CWLNode.map es a b →
      buildWorkflow fs d = Except.ok w →
      ∀ sec ∈ requiredSections,
        w.problems_with_wf.count (missingDiag sec) = if hasKeyB es sec then 0 else 1 := by
  intro fs d es a b w hmap hok sec hsec
  rcases buildWorkflow_ok_inv fs d w hok with ⟨probs1, inNode, inPairs, inputsL, outNode,
    outPairs, outputsL, stNode, stPairs, stepsL, probs2, cs1, ps1, cs2, ps2, h1, h2, h3,
    h4, h5, h6, h7, h8, h9, h10, h11, h12, hw⟩
  rw [hmap, sectionProblems, sectionProblemsAux_map] at h1
  have hp1 : probs1 = (requiredSections.filter (fun t => !hasKeyB es t)).map missingDiag := by
    injection h1 with h1e
    exact h1e.symm
  rcases buildSteps_probs fs d.path stPairs probs1 stepsL probs2 h10 with ⟨n1, hn1, hc1⟩
  have hcol1 := processSteps_probs (odFromList inputsL) (odFromList stepsL) stPairs cs1 ps1 h11
  have hcol2 := processOutputs_probs (odFromList inputsL) (odFromList stepsL)
    (odFromList outputsL) outPairs cs2 ps2 h12
  have htarget : pyStrContainsChar (missingDiag sec) ':' = false := by
    fin_cases hsec <;> decide
  rw [hw]
  show (probs2 ++ ps1 ++ ps2).count (missingDiag sec) = _
  rw [hn1, hp1]
  rw [List.count_append, List.count_append, List.count_append]
  rw [count_missing es sec hsec]
  rw [count_zero_of_colon n1 _ hc1 htarget, count_zero_of_colon ps1 _ hcol1 htarget,
    count_zero_of_colon ps2 _ hcol2 htarget]
  omega

/-- A port drawn from the graph state used during connection building:
either the second component of a stored workflow-input pair, or a stored
available source port of a stored step. -/
def PortFromGraph (inputs : List (String × Port)) (steps : List (String × Step))
    (p : Port) : Prop :=
  (∃ q ∈ inputs, Prod.snd q = p)
  ∨ (∃ q ∈ steps, ∃ r ∈ (Prod.snd q).available_sources, Prod.snd r = p)

/-- Every port of a resolved step interface is owned by the step and has
no line. -/
theorem stepInterface_ports (step_id : String) (sp : CWLNode)
    (sinks sources : List (String × Port))
    (h : stepInterface step_id sp = Except.ok (sinks, sources)) :
    (∀ q ∈ sinks, (Prod.snd q).line = none)
    ∧ (∀ q ∈ sources, (Prod.snd q).line = none) := by
  rw [stepInterface] at h
  cases hg1 : nodeGetD sp "inputs" emptyMap with
  | error e => rw [hg1] at h; simp at h
  | ok inN =>
  simp only [hg1] at h
  cases hl1 : iter_lom inN with
  | error e => rw [hl1] at h; simp at h
  | ok sinkPairs =>
  simp only [hl1] at h
  cases hg2 : nodeGetD sp "outputs" emptyMap with
  | error e => rw [hg2] at h; simp at h
  | ok outN =>
  simp only [hg2] at h
  cases hl2 : iter_lom outN with
  | error e => rw [hl2] at h; simp at h
  | ok sourcePairs =>
  simp only [hl2, Except.ok.injEq, Prod.mk.injEq] at h
  constructor
  · intro q hq
    rw [← h.1] at hq
    rcases List.mem_map.mp (odFromList_mem _ q hq) with ⟨kv, _, hkv⟩
    rw [← hkv]
  · intro q hq
    rw [← h.2] at hq
    rcases List.mem_map.mp (odFromList_mem _ q hq) with ⟨kv, _, hkv⟩
    rw [← hkv]

/-- Every sink or source port stored on a Step built by `from_doc` has no
line. -/
theorem fromDoc_ports (fs : List (String × CWLNode)) (step_id : String) (ln : Nat × Nat)
    (step_doc : CWLNode) (rootPath : String) (probs : List String)
    (st : Step) (probs2 : List String)
    (h : Step.from_doc fs step_id ln step_doc rootPath probs = Except.ok (st, probs2)) :
    (∀ q ∈ st.available_sinks, (Prod.snd q).line = none)
    ∧ (∀ q ∈ st.available_sources, (Prod.snd q).line = none) := by
  cases step_doc with
  | null =>
    simp only [Step.from_doc, Except.ok.injEq, Prod.mk.injEq] at h
    rw [← h.1]
    exact ⟨fun q hq => absurd hq (List.not_mem_nil q), fun q hq => absurd hq (List.not_mem_nil q)⟩
  | list its a b => simp [Step.from_doc, pyContainsKey] at h
  | scalar s =>
    cases hck : containsSub ("run").data s.data with
    | false =>
      simp only [Step.from_doc, pyContainsKey, hck, Except.ok.injEq, Prod.mk.injEq] at h
      rw [← h.1]
      exact ⟨fun q hq => absurd hq (List.not_mem_nil q), fun q hq => absurd hq (List.not_mem_nil q)⟩
    | true => simp [Step.from_doc, pyContainsKey, hck, nodeGet] at h
  | map es a b =>
    cases hck : hasKeyB es "run" with
    | false =>
      simp only [Step.from_doc, pyContainsKey, hck, Except.ok.injEq, Prod.mk.injEq] at h
      rw [← h.1]
      exact ⟨fun q hq => absurd hq (List.not_mem_nil q), fun q hq => absurd hq (List.not_mem_nil q)⟩
    | true =>
      simp only [Step.from_doc, pyContainsKey, hck, nodeGet] at h
      cases hlk : lookupStr es "run" with
      | none => rw [hlk] at h; simp at h
      | some runNode =>
        simp only [hlk] at h
        cases hsi : stepInterface step_id (resolveRun fs rootPath runNode probs).1 with
        | error e => rw [hsi] at h; simp at h
        | ok pr =>
          obtain ⟨sinks, sources⟩ := pr
          rw [hsi] at h
          simp only [Except.ok.injEq, Prod.mk.injEq] at h
          rw [← h.1]
          exact stepInterface_ports step_id (resolveRun fs rootPath runNode probs).1
            sinks sources hsi

/-- Every source port of every step stored by `buildSteps` has no line. -/
theorem buildSteps_ports (fs : List (String × CWLNode)) (rootPath : String) :
    ∀ (pairs : List (String × CWLNode)) (probs : List String)
      (l : List (String × Step)) (probs2 : List String),
      buildSteps fs rootPath pairs probs = Except.ok (l, probs2) →
      ∀ q ∈ l, ∀ r ∈ (Prod.snd q).available_sources, (Prod.snd r).line = none := by
  intro pairs
  induction pairs with
  | nil =>
    intro probs l probs2 h q hq
    rw [buildSteps] at h
    simp only [Except.ok.injEq, Prod.mk.injEq] at h
    rw [← h.1] at hq
    cases hq
  | cons kv rest ih =>
    intro probs l probs2 h q hq
    obtain ⟨k, v⟩ := kv
    rw [buildSteps] at h
    cases hln : nodeLines v with
    | error e => rw [hln] at h; simp at h
    | ok ln =>
      simp only [hln] at h
      cases hfd : Step.from_doc fs k ln v rootPath probs with
      | error e => rw [hfd] at h; simp at h
      | ok pr =>
        obtain ⟨st, probsMid⟩ := pr
        simp only [hfd] at h
        cases hbs : buildSteps fs rootPath rest probsMid with
        | error e => rw [hbs] at h; simp at h
        | ok pr2 =>
          obtain ⟨sts, probs3⟩ := pr2
          simp only [hbs, Except.ok.injEq, Prod.mk.injEq] at h
          rw [← h.1] at hq
          rcases List.mem_cons.mp hq with h3 | h3
          · intro r hr
            rw [h3] at hr
            exact (fromDoc_ports fs k ln v rootPath probs st probsMid hfd).2 r hr
          · exact ih probsMid sts probs3 hbs q h3

/-- A port returned by `_get_source` comes from the stored workflow
inputs or from a stored step's available sources. -/
theorem getSource_origin (inputs : List (String × Port)) (steps : List (String × Step))
    (n : CWLNode) (p : Port) (h : getSource inputs steps n = Except.ok p) :
    PortFromGraph inputs steps p := by
  cases n with
  | null => simp [getSource] at h
  | map es a b => simp [getSource] at h
  | list its a b => simp [getSource] at h
  | scalar s =>
    simp only [getSource] at h
    by_cases hs : s = ""
    · rw [if_pos hs] at h; simp at h
    · rw [if_neg hs] at h
      cases hc : pyStrContainsChar s '/' with
      | true =>
        rw [hc] at h
        simp only [if_true] at h
        rw [getStepSource] at h
        rcases hsp : pySplitSlash s with _ | ⟨x, _ | ⟨y, _ | ⟨z, t⟩⟩⟩
        · rw [hsp] at h; simp at h
        · rw [hsp] at h; simp at h
        · simp only [hsp] at h
          cases hls : lookupStr steps x with
          | none => rw [hls] at h; simp at h
          | some st =>
            simp only [hls] at h
            cases hlp : lookupStr st.available_sources y with
            | none => rw [hlp] at h; simp at h
            | some p2 =>
              rw [hlp] at h
              injection h with he
              right
              rcases lookupStr_mem steps x st hls with ⟨q, hq, hq2⟩
              rcases lookupStr_mem st.available_sources y p2 hlp with ⟨r, hr, hr2⟩
              refine ⟨q, hq, r, ?_, by rw [hr2, he]⟩
              rw [hq2]
              exact hr
        · rw [hsp] at h; simp at h
      | false =>
        rw [hc] at h
        simp only [Bool.false_eq_true, if_false] at h
        cases hli : lookupStr inputs s with
        | none => rw [hli] at h; simp at h
        | some p2 =>
          rw [hli] at h
          injection h with he
          left
          rcases lookupStr_mem inputs s p2 hli with ⟨q, hq, hq2⟩
          exact ⟨q, hq, by rw [hq2, he]⟩

/-- Every connection appended by the per-reference loop carries the line
of its source port, and that port comes from the graph state. -/
theorem processSourceRefs_src (inputs : List (String × Port))
    (steps : List (String × Step)) (label : String) (sink : Port) :
    ∀ (refs : List CWLNode) (cs : List Connection) (ps : List String),
      processSourceRefs inputs steps label sink refs = Except.ok (cs, ps) →
      ∀ c ∈ cs, c.line = c.src.line ∧ PortFromGraph inputs steps c.src := by
  intro refs
  induction refs with
  | nil =>
    intro cs ps h c hc
    rw [processSourceRefs] at h
    cases h
    cases hc
  | cons r rest ih =>
    intro cs ps h c hc
    rw [processSourceRefs] at h
    cases hg : getSource inputs steps r with
    | ok source =>
      cases hrec : processSourceRefs inputs steps label sink rest with
      | error e => rw [hg, hrec] at h; simp at h
      | ok pr =>
        obtain ⟨cs2, ps2⟩ := pr
        rw [hg, hrec] at h
        simp only [Except.ok.injEq, Prod.mk.injEq] at h
        rw [← h.1] at hc
        rcases List.mem_cons.mp hc with h3 | h3
        · rw [h3]
          exact ⟨rfl, getSource_origin inputs steps r source hg⟩
        · exact ih cs2 ps2 hrec c h3
    | error e =>
      cases e with
      | wf m =>
        cases hrec : processSourceRefs inputs steps label sink rest with
        | error e2 => rw [hg, hrec] at h; simp at h
        | ok pr =>
          obtain ⟨cs2, ps2⟩ := pr
          rw [hg, hrec] at h
          simp only [Except.ok.injEq, Prod.mk.injEq] at h
          rw [← h.1] at hc
          exact ih cs2 ps2 hrec c hc
      | valueError m => rw [hg] at h; simp at h
      | typeError m => rw [hg] at h; simp at h
      | attributeError m => rw [hg] at h; simp at h
      | keyError m => rw [hg] at h; simp at h

/-- Connection source property through the per-step sink loop. -/
theorem processStepIns_src (inputs : List (String × Port))
    (steps : List (String × Step)) (this_step : Step) :
    ∀ (pairs : List (String × CWLNode)) (cs : List Connection) (ps : List String),
      processStepIns inputs steps this_step pairs = Except.ok (cs, ps) →
      ∀ c ∈ cs, c.line = c.src.line ∧ PortFromGraph inputs steps c.src := by
  intro pairs
  induction pairs with
  | nil =>
    intro cs ps h c hc
    rw [processStepIns] at h
    cases h
    cases hc
  | cons kv rest ih =>
    intro cs ps h c hc
    obtain ⟨sid, port_doc⟩ := kv
    rw [processStepIns] at h
    cases hlk : lookupStr this_step.available_sinks sid with
    | none =>
      cases hrec : processStepIns inputs steps this_step rest with
      | error e => rw [hlk, hrec] at h; simp at h
      | ok pr =>
        obtain ⟨cs2, ps2⟩ := pr
        rw [hlk, hrec] at h
        simp only [Except.ok.injEq, Prod.mk.injEq] at h
        rw [← h.1] at hc
        exact ih cs2 ps2 hrec c hc
    | some sink =>
      simp only [hlk] at h
      cases hck : pyContainsKey port_doc "source" with
      | error e => rw [hck] at h; simp at h
      | ok hasSrc =>
        simp only [hck] at h
        cases hasSrc with
        | false =>
          simp only [Bool.false_eq_true, if_false] at h
          exact ih cs ps h c hc
        | true =>
          simp only [if_true] at h
          cases hng : nodeGet port_doc "source" with
          | error e => rw [hng] at h; simp at h
          | ok srcNode =>
            simp only [hng] at h
            cases hpr : processSourceRefs inputs steps (Step.pyRepr this_step ++ "." ++ sid)
                sink (iter_scalar_or_list srcNode) with
            | error e => rw [hpr] at h; simp at h
            | ok pr1 =>
              obtain ⟨cs1, ps1⟩ := pr1
              simp only [hpr] at h
              cases hrec : processStepIns inputs steps this_step rest with
              | error e => rw [hrec] at h; simp at h
              | ok pr2 =>
                obtain ⟨cs2, ps2⟩ := pr2
                simp only [hrec, Except.ok.injEq, Prod.mk.injEq] at h
                rw [← h.1] at hc
                rcases List.mem_append.mp hc with h3 | h3
                · exact processSourceRefs_src inputs steps
                    (Step.pyRepr this_step ++ "." ++ sid) sink
                    (iter_scalar_or_list srcNode) cs1 ps1 hpr c h3
                · exact ih cs2 ps2 hrec c h3

/-- Connection source property through the step pass. -/
theorem processSteps_src (inputs : List (String × Port))
    (stepsDict : List (String × Step)) :
    ∀ (pairs : List (String × CWLNode)) (cs : List Connection) (ps : List String),
      processSteps inputs stepsDict pairs = Except.ok (cs, ps) →
      ∀ c ∈ cs, c.line = c.src.line ∧ PortFromGraph inputs stepsDict c.src := by
  intro pairs
  induction pairs with
  | nil =>
    intro cs ps h c hc
    rw [processSteps] at h
    cases h
    cases hc
  | cons kv rest ih =>
    intro cs ps h c hc
    obtain ⟨step_id, step_doc⟩ := kv
    cases step_doc with
    | map es a b =>
      simp only [processSteps] at h
      cases hlk : lookupStr stepsDict step_id with
      | none => rw [hlk] at h; simp at h
      | some this_step =>
        simp only [hlk] at h
        cases hgd : nodeGetD (CWLNode.map es a b) "in" emptyMap with
        | error e => rw [hgd] at h; simp at h
        | ok inNode =>
          simp only [hgd] at h
          cases hip : pyIterPairs inNode with
          | error e => rw [hip] at h; simp at h
          | ok inPairs =>
            simp only [hip] at h
            cases hsi : processStepIns inputs stepsDict this_step inPairs with
            | error e => rw [hsi] at h; simp at h
            | ok pr1 =>
              obtain ⟨cs1, ps1⟩ := pr1
              simp only [hsi] at h
              cases hrec : processSteps inputs stepsDict rest with
              | error e => rw [hrec] at h; simp at h
              | ok pr2 =>
                obtain ⟨cs2, ps2⟩ := pr2
                simp only [hrec, Except.ok.injEq, Prod.mk.injEq] at h
                rw [← h.1] at hc
                rcases List.mem_append.mp hc with h3 | h3
                · exact processStepIns_src inputs stepsDict this_step inPairs cs1 ps1 hsi c h3
                · exact ih cs2 ps2 hrec c h3
    | null =>
      simp only [processSteps] at h
      cases hrec : processSteps inputs stepsDict rest with
      | error e => rw [hrec] at h; simp at h
      | ok pr =>
        obtain ⟨cs2, ps2⟩ := pr
        rw [hrec] at h
        simp only [Except.ok.injEq, Prod.mk.injEq] at h
        rw [← h.1] at hc
        exact ih cs2 ps2 hrec c hc
    | scalar s =>
      simp only [processSteps] at h
      cases hrec : processSteps inputs stepsDict rest with
      | error e => rw [hrec] at h; simp at h
      | ok pr =>
        obtain ⟨cs2, ps2⟩ := pr
        rw [hrec] at h
        simp only [Except.ok.injEq, Prod.mk.injEq] at h
        rw [← h.1] at hc
        exact ih cs2 ps2 hrec c hc
    | list its a b =>
      simp only [processSteps] at h
      cases hrec : processSteps inputs stepsDict rest with
      | error e => rw [hrec] at h; simp at h
      | ok pr =>
        obtain ⟨cs2, ps2⟩ := pr
        rw [hrec] at h
        simp only [Except.ok.injEq, Prod.mk.injEq] at h
        rw [← h.1] at hc
        exact ih cs2 ps2 hrec c hc

/-- Connection source property through the outputs pass. -/
theorem processOutputs_src (inputs : List (String × Port))
    (steps : List (String × Step)) (outputsDict : List (String × Port)) :
    ∀ (pairs : List (String × CWLNode)) (cs : List Connection) (ps : List String),
      processOutputs inputs steps outputsDict pairs = Except.ok (cs, ps) →
      ∀ c ∈ cs, c.line = c.src.line ∧ PortFromGraph inputs steps c.src := by
  intro pairs
  induction pairs with
  | nil =>
    intro cs ps h c hc
    rw [processOutputs] at h
    cases h
    cases hc
  | cons kv rest ih =>
    intro cs ps h c hc
    obtain ⟨out_id, out_doc⟩ := kv
    rw [processOutputs] at h
    cases hlk : lookupStr outputsDict out_id with
    | none => rw [hlk] at h; simp at h
    | some sink =>
      simp only [hlk] at h
      cases hck : pyContainsKey out_doc "outputSource" with
      | error e => rw [hck] at h; simp at h
      | ok hasOS =>
        simp only [hck] at h
        cases hasOS with
        | false =>
          simp only [Bool.false_eq_true, if_false] at h
          exact ih cs ps h c hc
        | true =>
          simp only [if_true] at h
          cases hng : nodeGet out_doc "outputSource" with
          | error e => rw [hng] at h; simp at h
          | ok osNode =>
            simp only [hng] at h
            cases hpr : processSourceRefs inputs steps sink.port_id sink
                (iter_scalar_or_list osNode) with
            | error e => rw [hpr] at h; simp at h
            | ok pr1 =>
              obtain ⟨cs1, ps1⟩ := pr1
              simp only [hpr] at h
              cases hrec : processOutputs inputs steps outputsDict rest with
              | error e => rw [hrec] at h; simp at h
              | ok pr2 =>
                obtain ⟨cs2, ps2⟩ := pr2
                simp only [hrec, Except.ok.injEq, Prod.mk.injEq] at h
                rw [← h.1] at hc
                rcases List.mem_append.mp hc with h3 | h3
                · exact processSourceRefs_src inputs steps sink.port_id sink
                    (iter_scalar_or_list osNode) cs1 ps1 hpr c h3
                · exact ih cs2 ps2 hrec c h3

/-- C10: every Port stored in a Step's available_sinks or
available_sources is created with no line; consequently, in any built
Workflow, a connection whose src is a step source port (owning node
present) has no line — the connection's line is copied from the source
port — and `find_connection` on that very connection returns nothing even
though the connection is stored, indistinguishably from absence. -/
theorem c10_step_ports_lineless :
    (∀ (fs : List (String × CWLNode)) (step_id : String) (ln : Nat × Nat)
        (step_doc : CWLNode) (rootPath : String) (probs : List String)
        (st : Step) (probs2 : List String),
        Step.from_doc fs step_id ln step_doc rootPath probs = Except.ok (st, probs2) →
        (∀ q ∈ st.available_sinks, (Prod.snd q).line = none)
        ∧ (∀ q ∈ st.available_sources, (Prod.snd q).line = none))
    ∧ (∀ (fs : List (String × CWLNode)) (d : CwlDoc) (w : Workflow),
        buildWorkflow fs d = Except.ok w →
        ∀ c ∈ w.connections, c.src.node_id ≠ none →
          c.line = none ∧ w.find_connection c = none) := by
  constructor
  · intro fs step_id ln step_doc rootPath probs st probs2 h
    exact fromDoc_ports fs step_id ln step_doc rootPath probs st probs2 h
  · intro fs d w hok c hc hnid
    rcases buildWorkflow_ok_inv fs d w hok with ⟨probs1, inNode, inPairs, inputsL, outNode,
      outPairs, outputsL, stNode, stPairs, stepsL, probs2, cs1, ps1, cs2, ps2, h1, h2, h3,
      h4, h5, h6, h7, h8, h9, h10, h11, h12, hw⟩
    have hprop : ∀ c0 ∈ w.connections, c0.src.node_id ≠ none → c0.line = none := by
      intro c0 hc0 hn0
      have hsrc : c0.line = c0.src.line
          ∧ PortFromGraph (odFromList inputsL) (odFromList stepsL) c0.src := by
        rw [hw] at hc0
        have hc0b : c0 ∈ cs1 ++ cs2 := hc0
        rcases List.mem_append.mp hc0b with hA | hB
        · exact processSteps_src (odFromList inputsL) (odFromList stepsL) stPairs
            cs1 ps1 h11 c0 hA
        · exact processOutputs_src (odFromList inputsL) (odFromList stepsL)
            (odFromList outputsL) outPairs cs2 ps2 h12 c0 hB
      rcases hsrc with ⟨hline, horigin⟩
      rcases horigin with ⟨q, hq, hq2⟩ | ⟨q, hq, r, hr, hr2⟩
      · exfalso
        have hni := buildPorts_node_id inPairs inputsL h4 q (odFromList_mem _ q hq)
        rw [hq2] at hni
        exact hn0 hni
      · have hrl := buildSteps_ports fs d.path stPairs probs1 stepsL probs2 h10 q
          (odFromList_mem _ q hq) r hr
        rw [hr2] at hrl
        rw [hline, hrl]
    refine ⟨hprop c hc hnid, ?_⟩
    have hrefl : Connection.pyEq c c = true := by simp [Connection.pyEq, Port.pyEq]
    rcases find?_exists (fun x => Connection.pyEq x c) w.connections c hc hrefl
      with ⟨b, hb1, hb2, hb3⟩
    have hbn : b.src.node_id = c.src.node_id := by
      have hbs : Port.pyEq b.src c.src = true ∧ Port.pyEq b.dst c.dst = true := by
        simpa [Connection.pyEq] using hb3
      have hb4 : b.src.node_id = c.src.node_id ∧ b.src.port_id = c.src.port_id := by
        simpa [Port.pyEq] using hbs.1
      exact hb4.1
    have hbl : b.line = none := hprop b hb2 (by rw [hbn]; exact hnid)
    rw [Workflow.find_connection, hb1]
    simpa using hbl

/-- The workflow built from the two-step document with the step-to-step
connection. -/
def wStepConnBuilt : Workflow :=
  { problems_with_wf := [], inputs := [], outputs := [],
    steps :=
      [("A", { id := "A", line := (5, 9), available_sinks := [],
               available_sources :=
                 [("out1", { node_id := some "A", port_id := "out1", line := none })] }),
       ("B", { id := "B", line := (5, 12),
               available_sinks :=
                 [("in1", { node_id := some "B", port_id := "in1", line := none })],
               available_sources := [] })],
    connections := [storedStepConn] }

/-- C10 witness: the stored step-to-step connection of the concrete build
has no line and is invisible to `find_connection`. -/
theorem c10_witness :
    storedStepConn.line = none
      ∧ wStepConnBuilt.find_connection storedStepConn = none := by
  exact c10_step_ports_lineless.2 [] docStepConn wStepConnBuilt (by rfl) storedStepConn
    (by decide) (by decide)

/-- The workflow built from the document missing only `outputs`. -/
def wNoOutputs : Workflow :=
  { problems_with_wf := [missingDiag "outputs"], inputs := [], outputs := [],
    steps := [], connections := [] }

/-- C7 witness: the document with every required section except
`outputs` builds to a workflow whose problems list contains the
`'outputs' missing` diagnostic exactly once. -/
theorem c7_witness :
    wNoOutputs.problems_with_wf.count (missingDiag "outputs")
      = if hasKeyB [("cwlVersion", CWLNode.scalar "v1.0"), ("class", CWLNode.scalar "Workflow"),
          ("inputs", CWLNode.map [] 1 1), ("steps", CWLNode.map [] 2 2)] "outputs"
        then 0 else 1 := by
  exact c7_missing_section_diag [] docNoOutputs
    [("cwlVersion", CWLNode.scalar "v1.0"), ("class", CWLNode.scalar "Workflow"),
     ("inputs", CWLNode.map [] 1 1), ("steps", CWLNode.map [] 2 2)] 0 2 wNoOutputs
    rfl (by rfl) "outputs" (by decide)

end Benten
